import Mathlib

/-!
# Pink Slip Management System — verification of the batch import core

Shallow embedding of `src/app.py` (Flask/SQLAlchemy pink-slip import tool).
Pure helpers (`_format_phone`, `_normalize_item_type`, price cleaning) are
translated directly.  The stateful upload route (`upload`, lines 195-394) is
embedded as explicit state passing over an `ImportState`; the SQLite store is
a list of tickets and the single `db.session.commit()` at the end of the batch
is modelled by a boolean commit flag (success applies the pending session
state, failure discards it, mirroring `rollback`).

External library primitives that the repository calls but does not define are
modelled as follows:
* `pandas.to_datetime`-based formatting (`_format_date_val`, `_format_time_val`,
  `_convert_to_12hr`) is abstracted as a bundle `DateFns` of total
  `String → String` functions — no claim depends on date parsing internals.
* Python `float(...)` is modelled by `pyFloat?` on decimal literals
  (optional sign, digits, optional fraction, optional exponent); prices are
  exact rationals `ℚ` in place of IEEE doubles, an accepted simplification
  since every claim only needs deterministic parsing, equality and summation.
-/

set_option linter.unnecessarySeqFocus false

/-- Python `str.strip()`: drop whitespace from both ends. -/
def pyStrip (s : String) : String :=
  ⟨((s.data.dropWhile Char.isWhitespace).reverse.dropWhile Char.isWhitespace).reverse⟩

/-- Python `str.lower()` (ASCII, as used by the repo's category matching). -/
def pyLower (s : String) : String := ⟨s.data.map Char.toLower⟩

/-- Python `str.upper()` (ASCII). -/
def pyUpper (s : String) : String := ⟨s.data.map Char.toUpper⟩

/-- Python `s[:1]`: at most the first character. -/
def pyTake1 (s : String) : String := ⟨s.data.take 1⟩

/-- Python substring test `pat in hay` on character lists. -/
def containsSub (hay pat : List Char) : Bool :=
  match hay with
  | [] => pat.isEmpty
  | _ :: t => pat.isPrefixOf hay || containsSub t pat

/-- The digit characters of a string, in order (`c for c in s if c.isdigit()`). -/
def digitsOf (s : String) : List Char := s.data.filter Char.isDigit

/-- Format ten digits as `(AAA) PPP-NNNN` (app.py lines 105, 109). -/
def fmt10 (ds : List Char) : String :=
  "(" ++ ⟨ds.take 3⟩ ++ ") " ++ ⟨(ds.drop 3).take 3⟩ ++ "-" ++ ⟨ds.drop 6⟩

/-- `_format_phone` (app.py lines 92-111): strip non-digits, pad 7-digit
numbers with the default 704 area code, format 10-digit (and 11-digit
leading-1) numbers, otherwise fall back to the stripped original; empty
digit strings yield `""`. -/
def _format_phone (s : String) : String :=
  if s = "" then ""
  else
    let ds := digitsOf s
    if ds = [] then ""
    else
      let ds := if ds.length = 7 then '7' :: '0' :: '4' :: ds else ds
      if ds.length = 10 then fmt10 ds
      else if ds.length = 11 && ds.head? = some '1' then fmt10 ds.tail
      else pyStrip s

/-- `VALID_ITEM_TYPES` (app.py line 128). -/
def VALID_ITEM_TYPES : List String :=
  ["Shirt", "Jeans", "Dress", "Jacket", "Coat", "Pants", "Skirt", "Shorts", "Other"]

/-- `ITEM_TYPE_ALIASES` (app.py lines 131-150). -/
def ITEM_TYPE_ALIASES : List (String × String) :=
  [("shirts", "Shirt"), ("tshirt", "Shirt"), ("t-shirt", "Shirt"), ("tee", "Shirt"),
   ("blouse", "Shirt"), ("top", "Shirt"),
   ("jean", "Jeans"), ("denim", "Jeans"),
   ("dresses", "Dress"), ("gown", "Dress"),
   ("jackets", "Jacket"), ("blazer", "Jacket"),
   ("coats", "Coat"), ("overcoat", "Coat"),
   ("pant", "Pants"), ("trousers", "Pants"), ("slacks", "Pants"),
   ("skirts", "Skirt"),
   ("short", "Shorts"),
   ("misc", "Other"), ("miscellaneous", "Other"), ("etc", "Other")]

/-- Alias-table lookup (Python dict membership + indexing). -/
def aliasFind (k : String) : Option String :=
  match ITEM_TYPE_ALIASES.find? (fun p => p.1 = k) with
  | some p => some p.2
  | none => none

/-- The substring step of `_normalize_item_type` (app.py lines 171-174):
does `lower` start with or contain the lowered valid type? -/
def typeSubMatch (lower : String) (validType : String) : Bool :=
  (pyLower validType).data.isPrefixOf lower.data ||
    containsSub lower.data (pyLower validType).data

/-- `_normalize_item_type` (app.py lines 152-177): exact case-insensitive
match against `VALID_ITEM_TYPES`, then the alias table, then a
starts-with/contains substring scan in list order, else `(none, false)`. -/
def _normalize_item_type (s : String) : Option String × Bool :=
  if pyStrip s = "" then (none, false)
  else
    let t := pyStrip s
    match VALID_ITEM_TYPES.find? (fun v => pyLower t = pyLower v) with
    | some v => (some v, true)
    | none =>
      let lower := pyLower t
      match aliasFind lower with
      | some v => (some v, true)
      | none =>
        match VALID_ITEM_TYPES.find? (fun v => typeSubMatch lower v) with
        | some v => (some v, true)
        | none => (none, false)

/-- Numeric value of a digit list (most significant first). -/
def natOfDigits (ds : List Char) : Nat :=
  ds.foldl (fun a c => 10 * a + (c.toNat - 48)) 0

/-- Python `float(...)` restricted to decimal literals: optional sign, an
integer and/or fractional digit part, optional exponent.  (`inf`, `nan`,
underscores and surrounding whitespace are not modelled; the import path
strips whitespace before parsing.)  Returns `none` exactly when Python's
`float` would raise `ValueError` on such literals.  The value is built with
core `mkRat` so that concrete runs reduce in the kernel. -/
def pyFloat? (s : String) : Option ℚ :=
  let l := s.data
  let sgn : Bool × List Char :=
    match l with
    | '-' :: t => (true, t)
    | '+' :: t => (false, t)
    | _ => (false, l)
  let ip := sgn.2.takeWhile Char.isDigit
  let l₂ := sgn.2.dropWhile Char.isDigit
  let hasDot := l₂.head? = some '.'
  let f := if hasDot then l₂.tail.takeWhile Char.isDigit else []
  let l₃ := if hasDot then l₂.tail.dropWhile Char.isDigit else l₂
  if ip = [] && (!hasDot || f = []) then none
  else
    let mantNum := natOfDigits (ip ++ f)
    let scale := f.length
    let withExp : Int → Option ℚ := fun e =>
      let v : ℚ :=
        if 0 ≤ e then mkRat (mantNum * 10 ^ e.toNat) (10 ^ scale)
        else mkRat mantNum (10 ^ (scale + e.natAbs))
      some (if sgn.1 then -v else v)
    match l₃ with
    | [] => withExp 0
    | c :: t =>
      if c = 'e' || c = 'E' then
        let esgn : Bool × List Char :=
          match t with
          | '-' :: u => (true, u)
          | '+' :: u => (false, u)
          | _ => (false, t)
        let ed := esgn.2.takeWhile Char.isDigit
        if ed = [] || esgn.2.dropWhile Char.isDigit ≠ [] then none
        else withExp (if esgn.1 then -(natOfDigits ed : Int) else (natOfDigits ed : Int))
      else none

/-- `PinkSlipItem` (app.py lines 41-51): a line item attached to one ticket. -/
structure Item where
  item_type : String
  work_description : String
  price : ℚ
deriving Repr, DecidableEq

/-- `PinkSlip` (app.py lines 18-39): a ticket, with its owned items inlined
(the `items` relationship). -/
structure Ticket where
  slip_number : String
  first_initial : String
  last_name : String
  phone : String
  date_received : String
  due_date : String
  due_time : String
  total_amount : ℚ
  items : List Item
deriving Repr, DecidableEq

/-- A raw input row: column name to raw cell text, as produced by
`pd.read_csv(..., dtype=str).fillna('')` (missing columns are absent keys). -/
def Row : Type := List (String × String)

/-- `row.get(key, '')` (pandas Series get with default). -/
def rowGet (r : Row) (k : String) : String :=
  match r.find? (fun p => p.1 = k) with
  | some p => p.2
  | none => ""

/-- The raw field reads of the upload loop (app.py lines 232-241). -/
structure RowData where
  slip_number : String
  first_initial : String
  last_name : String
  phone : String
  item_type_raw : String
  work_description : String
  price_raw : String
  date_received_raw : String
  due_date_raw : String
  due_time_raw : String
deriving Repr, DecidableEq

/-- `price_raw.strip().replace('$','').replace(',','')` (app.py line 238). -/
def cleanPrice (s : String) : String :=
  ⟨(pyStrip s).data.filter (fun c => !(c = '$' || c = ','))⟩

/-- Read the raw values of one row (app.py lines 232-241). -/
def readRow (r : Row) : RowData :=
  { slip_number := pyStrip (rowGet r "slip_number")
    first_initial := pyTake1 (pyUpper (pyStrip (rowGet r "first_initial")))
    last_name := pyStrip (rowGet r "last_name")
    phone := _format_phone (rowGet r "phone")
    item_type_raw := pyStrip (rowGet r "item_type")
    work_description := pyStrip (rowGet r "work_description")
    price_raw := cleanPrice (rowGet r "price")
    date_received_raw := rowGet r "date_received"
    due_date_raw := rowGet r "due_date"
    due_time_raw := rowGet r "due_time" }

/-- The rejection message of the invalid-category check (app.py line 262). -/
def invalidTypeMsg (raw : String) : String :=
  "Invalid item_type: '" ++ raw ++ "'. Valid types: " ++
    String.intercalate ", " VALID_ITEM_TYPES

/-- Outcome of the per-row validation gate: canonical item type and parsed
price. -/
structure ValidRow where
  item_type : String
  price : ℚ
deriving Repr, DecidableEq

/-- The validation block of the upload loop (app.py lines 243-285), minus the
row-number bookkeeping: four checks in order, short-circuiting — missing
slip number, invalid item type, unparseable price, negative price.  Errors
carry the recorded slip number and message. -/
def checkRow (d : RowData) : Except (String × String) ValidRow :=
  if d.slip_number = "" then .error ("", "Missing slip_number")
  else
    let no := _normalize_item_type d.item_type_raw
    if no.2 = false then .error (d.slip_number, invalidTypeMsg d.item_type_raw)
    else
      match pyFloat? d.price_raw with
      | none => .error (d.slip_number, "Invalid price format")
      | some p =>
        if p < 0 then .error (d.slip_number, "Negative price not allowed")
        else .ok ⟨no.1.getD "", p⟩

/-- One entry of `error_rows` (app.py line 222). -/
structure ErrRow where
  row : Nat
  slip_number : String
  error : String
deriving Repr, DecidableEq

/-- The pandas-backed date/time normalizers (app.py lines 54-90, 113-125),
abstracted as total string functions: their internals (pandas `to_datetime`)
are external to the repository and irrelevant to every claim. -/
structure DateFns where
  formatDateVal : String → String
  formatTimeVal : String → String
  convertTo12hr : String → String

/-- A `DateFns` instance agreeing with the real normalizers on empty cells
(`_format_date_val('') = ''` etc.), used to run concrete batches whose rows
carry no date columns. -/
def blankDates : DateFns := ⟨fun _ => "", fun _ => "", fun _ => ""⟩

/-- `s2 if s2 else s1` defaulting (app.py lines 303-304: `first_initial or
'?'`, `last_name or 'Unknown'`). -/
def orDefault (s d : String) : String := if s = "" then d else s

/-- One fill-only field update (app.py lines 315-326): set the incoming value
only when it is non-empty and the stored value is empty. -/
def fillField (cur inc : String) : String :=
  if inc ≠ "" ∧ cur = "" then inc else cur

/-- Construct a fresh ticket from one row (app.py lines 301-310). -/
def newTicket (d : RowData) (dr dd dt : String) : Ticket :=
  { slip_number := d.slip_number
    first_initial := orDefault d.first_initial "?"
    last_name := orDefault d.last_name "Unknown"
    phone := d.phone
    date_received := dr
    due_date := dd
    due_time := dt
    total_amount := 0
    items := [] }

/-- Fill-only merge of one row into an existing ticket (app.py lines 314-326). -/
def mergeTicket (t : Ticket) (d : RowData) (dr dd dt : String) : Ticket :=
  { t with
    first_initial := fillField t.first_initial d.first_initial
    last_name := fillField t.last_name d.last_name
    phone := fillField t.phone d.phone
    date_received := fillField t.date_received dr
    due_date := fillField t.due_date dd
    due_time := fillField t.due_time dt }

/-- Lookup in the batch-scoped ticket cache (`tickets_cache.get`). -/
def cacheFind (cache : List (String × Ticket)) (k : String) : Option Ticket :=
  match cache.find? (fun p => p.1 = k) with
  | some p => some p.2
  | none => none

/-- Replace the cached ticket stored under `k` (the Python cache holds the
mutable object; mutating it is replacing the value here). -/
def cacheSet (cache : List (String × Ticket)) (k : String) (t : Ticket) :
    List (String × Ticket) :=
  cache.map (fun p => if p.1 = k then (k, t) else p)

/-- `PinkSlip.query.filter_by(slip_number=...).first()`. -/
def storeFind (store : List Ticket) (k : String) : Option Ticket :=
  store.find? (fun t => t.slip_number = k)

/-- The get-or-create step (app.py lines 296-327): consult the batch cache,
fall back to a store query; merge fill-only into a found ticket, otherwise
create a fresh one (counting it).  Returns the ticket, the updated cache and
the `tickets_created` increment. -/
def obtainOrCreate (cache : List (String × Ticket)) (store : List Ticket)
    (d : RowData) (dr dd dt : String) : Ticket × List (String × Ticket) × Nat :=
  match cacheFind cache d.slip_number with
  | some t => (t, cache, 0)
  | none =>
    match storeFind store d.slip_number with
    | some t0 =>
      let t := mergeTicket t0 d dr dd dt
      (t, cache ++ [(d.slip_number, t)], 0)
    | none =>
      let t := newTicket d dr dd dt
      (t, cache ++ [(d.slip_number, t)], 1)

/-- The per-ticket duplicate item check (app.py lines 330-336): identical
type, description and price against any item already on the ticket. -/
def isDuplicate (t : Ticket) (it wd : String) (p : ℚ) : Bool :=
  t.items.any (fun ex => ex.item_type = it && ex.work_description = wd && ex.price = p)

/-- The in-flight state of one upload: the untouched committed store, the
batch cache, the four counters and the rejection list (app.py lines 215-225). -/
structure ImportState where
  committed : List Ticket
  cache : List (String × Ticket)
  tickets_created : Nat
  items_imported : Nat
  duplicates_skipped : Nat
  rows_skipped : Nat
  error_rows : List ErrRow
deriving Repr, DecidableEq

/-- The state at the top of the upload loop. -/
def initState (store : List Ticket) : ImportState :=
  ⟨store, [], 0, 0, 0, 0, []⟩

/-- The due-time selection (app.py lines 290-294): use the explicit
`due_time` column when present, otherwise extract the time from `due_date`. -/
def dueTimeOf (F : DateFns) (d : RowData) : String :=
  if pyStrip d.due_time_raw ≠ "" then F.convertTo12hr d.due_time_raw
  else F.formatTimeVal d.due_date_raw

/-- One iteration of the upload loop (app.py lines 228-350) on the row with
Excel-style row number `n`: read, validate (recording a rejection and
stopping on failure), normalize dates, obtain-or-create the ticket, skip
duplicates, otherwise attach the new item. -/
def processRow (F : DateFns) (s : ImportState) (n : Nat) (r : Row) : ImportState :=
  let d := readRow r
  match checkRow d with
  | .error e =>
    { s with
      rows_skipped := s.rows_skipped + 1
      error_rows := s.error_rows ++ [⟨n, e.1, e.2⟩] }
  | .ok v =>
    let dr := F.formatDateVal d.date_received_raw
    let dd := F.formatDateVal d.due_date_raw
    let dt := dueTimeOf F d
    let oc := obtainOrCreate s.cache s.committed d dr dd dt
    let t := oc.1
    let cache := oc.2.1
    let created := oc.2.2
    if isDuplicate t v.item_type d.work_description v.price then
      { s with
        cache := cache
        tickets_created := s.tickets_created + created
        duplicates_skipped := s.duplicates_skipped + 1 }
    else
      let t2 := { t with items := t.items ++ [⟨v.item_type, d.work_description, v.price⟩] }
      { s with
        cache := cacheSet cache d.slip_number t2
        tickets_created := s.tickets_created + created
        items_imported := s.items_imported + 1 }

/-- The upload loop over the remaining rows, `i` being the 0-based dataframe
index of the next row; each row is processed with row number `i + 2`
(app.py lines 228-229: header row plus 1-based numbering). -/
def runRowsAux (F : DateFns) : Nat → List Row → ImportState → ImportState
  | _, [], s => s
  | i, r :: rest, s => runRowsAux F (i + 1) rest (processRow F s (i + 2) r)

/-- Sum of the prices of a ticket's items (app.py lines 354-359). -/
def sumPrices (items : List Item) : ℚ :=
  items.foldl (fun a it => a + it.price) 0

/-- The post-loop aggregate pass (app.py lines 352-361): recompute
`total_amount` for every cached ticket. -/
def recompute (cache : List (String × Ticket)) : List (String × Ticket) :=
  cache.map (fun p => (p.1, { p.2 with total_amount := sumPrices p.2.items }))

/-- Apply the pending session state to the committed store: tickets touched
this batch replace their committed versions; newly created tickets (whose
slip number is absent from the committed store) are appended. -/
def applyCache (store : List Ticket) (cache : List (String × Ticket)) :
    List Ticket :=
  store.map (fun t =>
      match cacheFind cache t.slip_number with
      | some t' => t'
      | none => t) ++
    (cache.filter (fun p => store.all (fun t => !(t.slip_number = p.1)))).map Prod.snd

/-- The success payload of an upload (app.py lines 374-378). -/
structure UploadResult where
  store : List Ticket
  tickets_created : Nat
  items_imported : Nat
  duplicates_skipped : Nat
  rows_skipped : Nat
  error_rows : List ErrRow
deriving Repr, DecidableEq

/-- Outcome of an upload: either the committed batch with its summary, or the
batch-level persistence failure (app.py lines 363-368), with the store it
leaves behind. -/
inductive UploadOutcome where
  | success (r : UploadResult)
  | dbError (store : List Ticket) (msg : String)
deriving Repr, DecidableEq

/-- Run the whole batch (loop plus aggregate pass) and return the pending
result, assuming the single final commit succeeds. -/
def uploadOk (F : DateFns) (rows : List Row) (store : List Ticket) : UploadResult :=
  let s := runRowsAux F 0 rows (initState store)
  let cache := recompute s.cache
  { store := applyCache s.committed cache
    tickets_created := s.tickets_created
    items_imported := s.items_imported
    duplicates_skipped := s.duplicates_skipped
    rows_skipped := s.rows_skipped
    error_rows := s.error_rows }

/-- The batch-failure message (app.py line 368). -/
def dbErrorMsg : String :=
  "Database integrity error during import. No changes were committed."

/-- The upload route's import core (app.py lines 215-394): process all rows,
recompute totals, then commit once; `commitSucceeds` models whether
`db.session.commit()` raises `IntegrityError` (in which case everything is
rolled back and the pre-batch store survives). -/
def upload (F : DateFns) (commitSucceeds : Bool) (rows : List Row)
    (store : List Ticket) : UploadOutcome :=
  if commitSucceeds then .success (uploadOk F rows store)
  else .dbError (runRowsAux F 0 rows (initState store)).committed dbErrorMsg

/-- The manual-entry form data (app.py lines 452-465): slip-level fields plus
the three parallel item lists. -/
structure SlipForm where
  slip_number : String
  first_initial : String
  last_name : String
  phone : String
  date_received : String
  due_date : String
  due_time : String
  item_types : List String
  work_descriptions : List String
  prices : List String

/-- The item validation loop of `add_pink_slip` (app.py lines 470-483), `i`
being the 1-based item index used in error messages; the zipped list stops at
the shortest input, as Python `zip` does. -/
def validateItems : Nat → List ((String × String) × String) → Except String (List Item)
  | _, [] => .ok []
  | i, ((it, wd), pr) :: rest =>
    let no := _normalize_item_type (pyStrip it)
    if no.2 = false then
      .error ("Item " ++ Nat.repr i ++ ": Invalid item type. Valid options: " ++
        String.intercalate ", " VALID_ITEM_TYPES)
    else
      match pyFloat? (cleanPrice pr) with
      | none =>
        .error ("Item " ++ Nat.repr i ++ ": Invalid price. Must be a positive number.")
      | some p =>
        if p < 0 then
          .error ("Item " ++ Nat.repr i ++ ": Invalid price. Must be a positive number.")
        else
          match validateItems (i + 1) rest with
          | .error m => .error m
          | .ok items => .ok (⟨no.1.getD "", pyStrip wd, p⟩ :: items)

/-- The POST branch of `add_pink_slip` (app.py lines 452-514): validate every
item up front, get or create the ticket, attach all items, recompute the
total, commit.  Errors are the 400 responses. -/
def addPinkSlip (F : DateFns) (form : SlipForm) (store : List Ticket) :
    Except String (List Ticket) :=
  let slip := pyStrip form.slip_number
  if form.item_types = [] then .error "At least one item is required."
  else
    match validateItems 1 ((form.item_types.zip form.work_descriptions).zip form.prices) with
    | .error m => .error m
    | .ok newItems =>
      let base : Ticket :=
        match storeFind store slip with
        | some t0 => t0
        | none =>
          { slip_number := slip
            first_initial := orDefault (pyTake1 (pyUpper (pyStrip form.first_initial))) "?"
            last_name := orDefault (pyStrip form.last_name) "Unknown"
            phone := _format_phone form.phone
            date_received := F.formatDateVal form.date_received
            due_date := F.formatDateVal form.due_date
            due_time := F.convertTo12hr form.due_time
            total_amount := 0
            items := [] }
      let t1 := { base with items := base.items ++ newItems }
      let t2 := { t1 with total_amount := sumPrices t1.items }
      match storeFind store slip with
      | some _ => .ok (store.map (fun u => if u.slip_number = slip then t2 else u))
      | none => .ok (store ++ [t2])

/-! ## Projection lemmas for one loop iteration -/

theorem processRow_committed (F : DateFns) (s : ImportState) (n : Nat) (r : Row) :
    (processRow F s n r).committed = s.committed := by
  cases h : checkRow (readRow r) <;>
    simp only [processRow, h] <;> try rfl
  all_goals split <;> rfl

theorem processRow_counter_sum (F : DateFns) (s : ImportState) (n : Nat) (r : Row) :
    (processRow F s n r).items_imported + (processRow F s n r).duplicates_skipped +
        (processRow F s n r).rows_skipped =
      s.items_imported + s.duplicates_skipped + s.rows_skipped + 1 := by
  cases h : checkRow (readRow r) <;>
    simp only [processRow, h] <;> try omega
  all_goals split <;> simp only [] <;> omega

theorem processRow_error_rows (F : DateFns) (s : ImportState) (n : Nat) (r : Row) :
    (processRow F s n r).error_rows =
      match checkRow (readRow r) with
      | .error e => s.error_rows ++ [⟨n, e.1, e.2⟩]
      | .ok _ => s.error_rows := by
  cases h : checkRow (readRow r) <;>
    simp only [processRow, h] <;> try rfl
  all_goals split <;> rfl

theorem processRow_rows_skipped (F : DateFns) (s : ImportState) (n : Nat) (r : Row) :
    (processRow F s n r).rows_skipped =
      match checkRow (readRow r) with
      | .error _ => s.rows_skipped + 1
      | .ok _ => s.rows_skipped := by
  cases h : checkRow (readRow r) <;>
    simp only [processRow, h] <;> try rfl
  all_goals split <;> rfl

/-- The committed store is only read, never written, during the loop: the
single commit point is after all rows (app.py lines 363-368). -/
theorem runRowsAux_committed (F : DateFns) (rows : List Row) :
    ∀ (i : Nat) (s : ImportState), (runRowsAux F i rows s).committed = s.committed := by
  induction rows with
  | nil => intro i s; rfl
  | cons r rest ih =>
    intro i s
    simp only [runRowsAux]
    rw [ih, processRow_committed]

/-- The rejection entries produced by validating `rows`, the next row having
0-based dataframe index `i` (hence Excel-style row number `i + 2`). -/
def rejectionsFrom : Nat → List Row → List ErrRow
  | _, [] => []
  | i, r :: rest =>
    match checkRow (readRow r) with
    | .error e => ⟨i + 2, e.1, e.2⟩ :: rejectionsFrom (i + 1) rest
    | .ok _ => rejectionsFrom (i + 1) rest

theorem runRowsAux_error_rows (F : DateFns) (rows : List Row) :
    ∀ (i : Nat) (s : ImportState),
      (runRowsAux F i rows s).error_rows = s.error_rows ++ rejectionsFrom i rows := by
  induction rows with
  | nil => intro i s; simp [runRowsAux, rejectionsFrom]
  | cons r rest ih =>
    intro i s
    simp only [runRowsAux, rejectionsFrom]
    rw [ih, processRow_error_rows]
    cases h : checkRow (readRow r) <;> simp

theorem runRowsAux_rows_skipped (F : DateFns) (rows : List Row) :
    ∀ (i : Nat) (s : ImportState),
      (runRowsAux F i rows s).rows_skipped =
        s.rows_skipped + (rejectionsFrom i rows).length := by
  induction rows with
  | nil => intro i s; simp [runRowsAux, rejectionsFrom]
  | cons r rest ih =>
    intro i s
    simp only [runRowsAux, rejectionsFrom]
    rw [ih, processRow_rows_skipped]
    cases h : checkRow (readRow r)
    · simp only [h, List.length_cons]
      show s.rows_skipped + 1 + (rejectionsFrom (i + 1) rest).length =
        s.rows_skipped + ((rejectionsFrom (i + 1) rest).length + 1)
      omega
    · simp only [h]

theorem runRowsAux_counter_sum (F : DateFns) (rows : List Row) :
    ∀ (i : Nat) (s : ImportState),
      (runRowsAux F i rows s).items_imported + (runRowsAux F i rows s).duplicates_skipped +
          (runRowsAux F i rows s).rows_skipped =
        s.items_imported + s.duplicates_skipped + s.rows_skipped + rows.length := by
  induction rows with
  | nil => intro i s; simp [runRowsAux]
  | cons r rest ih =>
    intro i s
    simp only [runRowsAux, List.length_cons]
    rw [ih]
    have h := processRow_counter_sum F s (i + 2) r
    omega

theorem rejectionsFrom_row_lb (rows : List Row) :
    ∀ i, ∀ e ∈ rejectionsFrom i rows, i + 2 ≤ e.row := by
  induction rows with
  | nil => intro i e he; simp [rejectionsFrom] at he
  | cons r rest ih =>
    intro i e he
    simp only [rejectionsFrom] at he
    cases hc : checkRow (readRow r) with
    | error err =>
      rw [hc] at he
      rcases List.mem_cons.mp he with h1 | h1
      · subst h1; simp
      · have := ih (i + 1) e h1; omega
    | ok v =>
      rw [hc] at he
      have := ih (i + 1) e he; omega

theorem rejectionsFrom_sorted (rows : List Row) :
    ∀ i, ((rejectionsFrom i rows).map ErrRow.row).Pairwise (· < ·) := by
  induction rows with
  | nil => intro i; simp [rejectionsFrom]
  | cons r rest ih =>
    intro i
    cases hc : checkRow (readRow r) with
    | error err =>
      simp only [rejectionsFrom, hc, List.map_cons]
      refine List.Pairwise.cons ?_ (ih (i + 1))
      intro b hb
      rcases List.mem_map.mp hb with ⟨e, he, rfl⟩
      have := rejectionsFrom_row_lb rest (i + 1) e he
      omega
    | ok v =>
      simp only [rejectionsFrom, hc]
      exact ih (i + 1)

/-! ## Claim theorems -/

/-- C8 (counterexample): on an input with no digit characters at all, such as
`"abc"`, `_format_phone` returns the empty string rather than the trimmed
original string, so "any other digit count → return the trimmed original
string unchanged" fails at digit count zero. -/
theorem phone_zero_digits_counterexample :
    _format_phone "abc" = "" ∧ pyStrip "abc" = "abc" ∧ _format_phone "abc" ≠ pyStrip "abc" := by
  decide

/-- C8 (amended): `_format_phone` strips all non-digit characters and then:
7 digits → prepend the fixed default area code `704` and format as 10
digits; 10 digits → `(AAA) PPP-NNNN`; 11 digits with a leading `1` → drop
the leading digit and format as 10; zero digits (including empty input) →
the empty string; any other digit count → the trimmed original string
unchanged.  Together with the spec's concrete examples. -/
theorem phone_normalization (s : String) :
    (digitsOf s = [] → _format_phone s = "") ∧
    ((digitsOf s).length = 7 →
      _format_phone s = fmt10 ('7' :: '0' :: '4' :: digitsOf s)) ∧
    ((digitsOf s).length = 10 → _format_phone s = fmt10 (digitsOf s)) ∧
    ((digitsOf s).length = 11 → (digitsOf s).head? = some '1' →
      _format_phone s = fmt10 (digitsOf s).tail) ∧
    (digitsOf s ≠ [] → (digitsOf s).length ≠ 7 → (digitsOf s).length ≠ 10 →
      ¬((digitsOf s).length = 11 ∧ (digitsOf s).head? = some '1') →
      _format_phone s = pyStrip s) ∧
    _format_phone "7041234567" = "(704) 123-4567" ∧
    _format_phone "1234567" = "(704) 123-4567" ∧
    _format_phone "17041234567" = "(704) 123-4567" ∧
    _format_phone "123" = "123" := by
  have hs : digitsOf s ≠ [] → ¬s = "" := by
    intro h hs0; apply h; rw [hs0]; rfl
  refine ⟨?_, ?_, ?_, ?_, ?_, by decide, by decide, by decide, by decide⟩
  · intro h
    by_cases h0 : s = ""
    · simp [_format_phone, h0]
    · simp [_format_phone, h0, h]
  · intro h
    have h1 : digitsOf s ≠ [] := by intro h0; rw [h0] at h; simp at h
    simp [_format_phone, hs h1, h1, h]
  · intro h
    have h1 : digitsOf s ≠ [] := by intro h0; rw [h0] at h; simp at h
    simp [_format_phone, hs h1, h1, h]
  · intro h hh
    have h1 : digitsOf s ≠ [] := by intro h0; rw [h0] at h; simp at h
    simp [_format_phone, hs h1, h1, h, hh]
  · intro h1 h7 h10 h11
    by_cases hl : (digitsOf s).length = 11
    · have hh : ¬((digitsOf s).head? = some '1') := fun hh => h11 ⟨hl, hh⟩
      simp [_format_phone, hs h1, h1, h7, h10, hl, hh]
    · simp [_format_phone, hs h1, h1, h7, h10, hl]

/-- A closed instance of `phone_normalization` discharging its hypotheses:
`"555-1234"` has exactly 7 digits and is padded with the 704 area code. -/
theorem phone_normalization_witness :
    _format_phone "555-1234" = fmt10 ('7' :: '0' :: '4' :: digitsOf "555-1234") :=
  (phone_normalization "555-1234").2.1 (by decide)

/-- C7: the category resolver tries, in order with first match winning:
case-insensitive exact match against `VALID_ITEM_TYPES`, then the alias
table, then a starts-with/contains substring scan in the fixed order, then
`(none, false)`; with the spec's concrete examples `"t-shirt"`,
`"BLAZER"`, `"xyz123"`, and empty input. -/
theorem category_resolution (s : String) :
    _normalize_item_type "t-shirt" = (some "Shirt", true) ∧
    _normalize_item_type "BLAZER" = (some "Jacket", true) ∧
    _normalize_item_type "xyz123" = (none, false) ∧
    _normalize_item_type "" = (none, false) ∧
    (pyStrip s = "" → _normalize_item_type s = (none, false)) ∧
    (∀ v, VALID_ITEM_TYPES.find? (fun w => pyLower (pyStrip s) = pyLower w) = some v →
      _normalize_item_type s = (some v, true)) ∧
    (VALID_ITEM_TYPES.find? (fun w => pyLower (pyStrip s) = pyLower w) = none →
      ∀ v, aliasFind (pyLower (pyStrip s)) = some v →
        _normalize_item_type s = (some v, true)) ∧
    (VALID_ITEM_TYPES.find? (fun w => pyLower (pyStrip s) = pyLower w) = none →
      aliasFind (pyLower (pyStrip s)) = none →
      ∀ v, VALID_ITEM_TYPES.find? (fun w => typeSubMatch (pyLower (pyStrip s)) w) = some v →
        _normalize_item_type s = (some v, true)) ∧
    (VALID_ITEM_TYPES.find? (fun w => pyLower (pyStrip s) = pyLower w) = none →
      aliasFind (pyLower (pyStrip s)) = none →
      VALID_ITEM_TYPES.find? (fun w => typeSubMatch (pyLower (pyStrip s)) w) = none →
      _normalize_item_type s = (none, false)) := by
  refine ⟨by decide, by decide, by decide, by decide, ?_, ?_, ?_, ?_, ?_⟩
  · intro h; simp [_normalize_item_type, h]
  · intro v hv
    have hne : ¬pyStrip s = "" := by
      intro h0
      rw [h0] at hv
      have hn : VALID_ITEM_TYPES.find? (fun w => pyLower "" = pyLower w) = none := by decide
      rw [hn] at hv; exact Option.noConfusion hv
    simp [_normalize_item_type, hne, hv]
  · intro h1 v hv
    have hne : ¬pyStrip s = "" := by
      intro h0
      rw [h0] at hv
      have hn : aliasFind (pyLower "") = none := by decide
      rw [hn] at hv; exact Option.noConfusion hv
    simp [_normalize_item_type, hne, h1, hv]
  · intro h1 h2 v hv
    have hne : ¬pyStrip s = "" := by
      intro h0
      rw [h0] at hv
      have hn : VALID_ITEM_TYPES.find? (fun w => typeSubMatch (pyLower "") w) = none := by
        decide
      rw [hn] at hv; exact Option.noConfusion hv
    simp [_normalize_item_type, hne, h1, h2, hv]
  · intro h1 h2 h3
    by_cases hne : pyStrip s = ""
    · simp [_normalize_item_type, hne]
    · simp [_normalize_item_type, hne, h1, h2, h3]

/-- A closed instance of `category_resolution`: `"gown"` resolves through
the alias table to `Dress`. -/
theorem category_resolution_witness :
    _normalize_item_type "gown" = (some "Dress", true) :=
  (category_resolution "gown").2.2.2.2.2.2.1 (by decide) "Dress" (by decide)

/-- C5: a row rejected by validation changes nothing but the rejection
bookkeeping: the committed store, the ticket cache and the
created/imported/duplicate counters are untouched; the only effects are the
`rows_skipped` increment and exactly one appended rejection entry. -/
theorem rejected_row_no_effect (F : DateFns) (s : ImportState) (n : Nat) (r : Row)
    (sl msg : String) (h : checkRow (readRow r) = .error (sl, msg)) :
    processRow F s n r =
      { s with
        rows_skipped := s.rows_skipped + 1
        error_rows := s.error_rows ++ [⟨n, sl, msg⟩] } := by
  simp [processRow, h]

/-- A closed instance of `rejected_row_no_effect`: a row with no
`slip_number` leaves the empty initial state unchanged except for one
`Missing slip_number` rejection. -/
theorem rejected_row_no_effect_witness :
    processRow blankDates (initState []) 2 [("item_type", "Shirt"), ("price", "5")] =
      { initState [] with
        rows_skipped := (initState []).rows_skipped + 1
        error_rows := (initState []).error_rows ++ [⟨2, "", "Missing slip_number"⟩] } :=
  rejected_row_no_effect blankDates (initState []) 2 [("item_type", "Shirt"), ("price", "5")]
    "" "Missing slip_number" (by with_unfolding_all rfl)

/-- Concrete rows for the C4 counterexample: two rows of one batch share
slip number `100`; the first supplies no phone, the second supplies one. -/
def c4rowA : Row := [("slip_number", "100"), ("item_type", "Shirt"), ("price", "5")]

/-- Second row of the C4 counterexample (cache hit with a new phone). -/
def c4rowB : Row :=
  [("slip_number", "100"), ("item_type", "Jeans"), ("price", "7"), ("phone", "7041234567")]

/-- C4 (counterexample): when row B's slip number hits the batch cache, no
fill-only merge happens: the cached ticket's phone is empty and row B's
incoming phone is non-empty, yet after the batch the ticket's phone is still
empty instead of the incoming value the claim requires. -/
theorem cache_hit_merge_counterexample :
    (uploadOk blankDates [c4rowA, c4rowB] []).store.map Ticket.phone = [""] ∧
    (readRow c4rowB).phone = "(704) 123-4567" ∧
    ¬(uploadOk blankDates [c4rowA, c4rowB] []).store.map Ticket.phone = ["(704) 123-4567"] := by
  with_unfolding_all decide

/-- C4 (amended): on a cache hit the obtain-or-create step returns the cached
ticket completely unchanged — no fill-only merge is applied (app.py lines
296-298 skip the merge block on a hit; the merge runs only on a cache miss
that finds the ticket in the persistent store). -/
theorem cache_hit_no_merge (cache : List (String × Ticket)) (store : List Ticket)
    (d : RowData) (dr dd dt : String) (t : Ticket)
    (h : cacheFind cache d.slip_number = some t) :
    obtainOrCreate cache store d dr dd dt = (t, cache, 0) := by
  simp [obtainOrCreate, h]

/-- A cached ticket used by the closed witnesses. -/
def tick0 : Ticket := ⟨"100", "?", "Unknown", "", "", "", "", 0, []⟩

/-- A closed instance of `cache_hit_no_merge`: with `100` already cached, row
B's lookup returns the cached ticket and leaves cache and counters alone. -/
theorem cache_hit_no_merge_witness :
    obtainOrCreate [("100", tick0)] [] (readRow c4rowB) "" "" "" =
      (tick0, [("100", tick0)], 0) :=
  cache_hit_no_merge [("100", tick0)] [] (readRow c4rowB) "" "" "" tick0 (by decide)

/-- The C9 row: the work description is supplied only under the legacy
`other_item_desc` column; there is no `work_description` key. -/
def c9row : Row :=
  [("slip_number", "100"), ("item_type", "Shirt"), ("price", "5"),
   ("other_item_desc", "hem pants")]

/-- C9 (counterexample): the import does not recognize `other_item_desc`:
the accepted item's work description comes out empty, not `"hem pants"`. -/
theorem legacy_desc_counterexample :
    (uploadOk blankDates [c9row] []).store.map (fun t => t.items.map Item.work_description) =
      [[""]] ∧
    rowGet c9row "other_item_desc" = "hem pants" ∧
    ¬(uploadOk blankDates [c9row] []).store.map (fun t => t.items.map Item.work_description) =
      [["hem pants"]] := by
  with_unfolding_all decide

/-- C9 (amended): the batch import reads the work description only from the
`work_description` column (app.py line 237); for any raw row without that
key — whatever other keys such as `other_item_desc` it carries — the
description used for the item is the empty string. -/
theorem legacy_desc_ignored (r : Row)
    (h : r.find? (fun p => p.1 = "work_description") = none) :
    (readRow r).work_description = "" := by
  simp [readRow, rowGet, h, pyStrip]

/-- A closed instance of `legacy_desc_ignored` at the C9 row. -/
theorem legacy_desc_ignored_witness : (readRow c9row).work_description = "" :=
  legacy_desc_ignored c9row (by decide)

/-- C3: if the persistence layer fails at the single batch commit, the
operation reports the batch-level failure (a distinct outcome from any
per-row rejection list) and the visible store is exactly the pre-batch
store — the loop never wrote to it, so rollback leaves no partial batch. -/
theorem commit_failure_rolls_back (F : DateFns) (rows : List Row) (store : List Ticket) :
    upload F false rows store = .dbError store dbErrorMsg ∧
    ∀ res, upload F false rows store ≠ .success res := by
  have hc := runRowsAux_committed F rows 0 (initState store)
  constructor
  · have he : upload F false rows store =
        .dbError (runRowsAux F 0 rows (initState store)).committed dbErrorMsg := rfl
    rw [he, hc]
    rfl
  · intro res h
    simp [upload] at h

/-- C10: the result counters partition the data rows — accepted, duplicate
and rejected rows add up to the batch size; the rejection list has exactly
`rows_skipped` entries; and its row numbers are strictly increasing. -/
theorem import_counts_partition (F : DateFns) (rows : List Row) (store : List Ticket) :
    (uploadOk F rows store).items_imported + (uploadOk F rows store).duplicates_skipped +
        (uploadOk F rows store).rows_skipped = rows.length ∧
    (uploadOk F rows store).error_rows.length = (uploadOk F rows store).rows_skipped ∧
    ((uploadOk F rows store).error_rows.map ErrRow.row).Pairwise (· < ·) := by
  have h1 := runRowsAux_counter_sum F rows 0 (initState store)
  have h2 := runRowsAux_error_rows F rows 0 (initState store)
  have h3 := runRowsAux_rows_skipped F rows 0 (initState store)
  simp only [initState] at h1 h2 h3
  simp only [uploadOk, initState]
  refine ⟨?_, ?_, ?_⟩
  · omega
  · rw [h2, h3]
    simp
  · rw [h2]
    simp only [List.nil_append]
    exact rejectionsFrom_sorted rows 0

theorem intercalate_valid_types :
    String.intercalate ", " VALID_ITEM_TYPES =
      "Shirt, Jeans, Dress, Jacket, Coat, Pants, Skirt, Shorts, Other" := by
  decide

/-- C6: the validation gate applies exactly four checks in order, stopping at
the first failure — empty slip number, invalid item type, unparseable
price, negative price — with the recorded slip number (empty when unknown)
and the human-readable messages, the invalid-category one carrying the raw
text and the full list of valid categories; and a batch's rejection list is
exactly the per-row validation failures, the row with 0-based dataframe
index `i` recorded under row number `i + 2` (1-based with the header row,
per `rejectionsFrom`). -/
theorem row_validation (d : RowData) :
    (d.slip_number = "" → checkRow d = .error ("", "Missing slip_number")) ∧
    (d.slip_number ≠ "" → (_normalize_item_type d.item_type_raw).2 = false →
      checkRow d = .error (d.slip_number,
        "Invalid item_type: '" ++ d.item_type_raw ++
          "'. Valid types: Shirt, Jeans, Dress, Jacket, Coat, Pants, Skirt, Shorts, Other")) ∧
    (d.slip_number ≠ "" → (_normalize_item_type d.item_type_raw).2 = true →
      pyFloat? d.price_raw = none →
      checkRow d = .error (d.slip_number, "Invalid price format")) ∧
    (∀ p, d.slip_number ≠ "" → (_normalize_item_type d.item_type_raw).2 = true →
      pyFloat? d.price_raw = some p → p < 0 →
      checkRow d = .error (d.slip_number, "Negative price not allowed")) ∧
    (∀ p it, d.slip_number ≠ "" → _normalize_item_type d.item_type_raw = (some it, true) →
      pyFloat? d.price_raw = some p → ¬p < 0 →
      checkRow d = .ok ⟨it, p⟩) ∧
    (∀ (F : DateFns) (rows : List Row) (store : List Ticket),
      (uploadOk F rows store).error_rows = rejectionsFrom 0 rows) := by
  have hmsg : invalidTypeMsg d.item_type_raw =
      "Invalid item_type: '" ++ d.item_type_raw ++
        "'. Valid types: Shirt, Jeans, Dress, Jacket, Coat, Pants, Skirt, Shorts, Other" := by
    simp only [invalidTypeMsg, intercalate_valid_types]
    rw [String.append_assoc, String.append_assoc]
    rfl
  refine ⟨?_, ?_, ?_, ?_, ?_, ?_⟩
  · intro h; simp [checkRow, h]
  · intro h1 h2
    rw [← hmsg]
    simp [checkRow, h1, h2]
  · intro h1 h2 h3
    simp [checkRow, h1, h2, h3]
  · intro p h1 h2 h3 h4
    simp [checkRow, h1, h2, h3, h4]
  · intro p it h1 h2 h3 h4
    simp [checkRow, h1, h2, h3, h4]
  · intro F rows store
    have h := runRowsAux_error_rows F rows 0 (initState store)
    simp only [initState] at h
    simp only [uploadOk, initState]
    rw [h]
    simp

/-- A closed instance of `row_validation`: a row with a valid slip and item
type but price `-5` is rejected as a negative price. -/
theorem row_validation_witness :
    checkRow (readRow [("slip_number", "7"), ("item_type", "Shirt"), ("price", "-5")]) =
      .error ("7", "Negative price not allowed") :=
  (row_validation
      (readRow [("slip_number", "7"), ("item_type", "Shirt"), ("price", "-5")])).2.2.2.1
    (mkRat (-5) 1) (by decide) (by decide) (by with_unfolding_all rfl)
    (by with_unfolding_all decide)

/-! ## Lemmas about the commit step -/

theorem cacheFind_eq_none_iff (cache : List (String × Ticket)) (k : String) :
    cacheFind cache k = none ↔ ∀ p ∈ cache, p.1 ≠ k := by
  unfold cacheFind
  cases h : cache.find? (fun p => p.1 = k) with
  | some p =>
    simp only [reduceCtorEq, false_iff]
    intro hall
    have hp := List.find?_some h
    have hm := List.mem_of_find?_eq_some h
    exact hall p hm (by simpa using hp)
  | none =>
    simp only [true_iff]
    intro p hp
    have := List.find?_eq_none.mp h p hp
    simpa using this

theorem cacheFind_some_mem (cache : List (String × Ticket)) (k : String) (t : Ticket)
    (h : cacheFind cache k = some t) : ∃ p ∈ cache, p.2 = t ∧ p.1 = k := by
  unfold cacheFind at h
  cases hf : cache.find? (fun p => p.1 = k) with
  | some p =>
    rw [hf] at h
    have hp := List.find?_some hf
    have hm := List.mem_of_find?_eq_some hf
    refine ⟨p, hm, ?_, by simpa using hp⟩
    simpa using h
  | none => rw [hf] at h; exact Option.noConfusion h

theorem mem_applyCache (store : List Ticket) (cache : List (String × Ticket)) (t : Ticket)
    (ht : t ∈ applyCache store cache) :
    (∃ p ∈ cache, p.2 = t) ∨ (t ∈ store ∧ cacheFind cache t.slip_number = none) := by
  unfold applyCache at ht
  rcases List.mem_append.mp ht with hl | hr
  · rcases List.mem_map.mp hl with ⟨u, hu, hut⟩
    cases hf : cacheFind cache u.slip_number with
    | some t' =>
      rw [hf] at hut
      rcases cacheFind_some_mem cache u.slip_number t' hf with ⟨p, hp, hpt, _⟩
      refine Or.inl ⟨p, hp, ?_⟩
      rw [hpt]
      exact hut
    | none =>
      rw [hf] at hut
      have hut2 : u = t := hut
      subst hut2
      exact Or.inr ⟨hu, hf⟩
  · rcases List.mem_map.mp hr with ⟨p, hp, hpt⟩
    exact Or.inl ⟨p, List.mem_of_mem_filter hp, hpt⟩

theorem recompute_inv (cache : List (String × Ticket)) :
    ∀ p ∈ recompute cache, p.2.total_amount = sumPrices p.2.items := by
  intro p hp
  rcases List.mem_map.mp hp with ⟨q, _, hq⟩
  rw [← hq]

theorem recompute_keys (cache : List (String × Ticket)) :
    (recompute cache).map Prod.fst = cache.map Prod.fst := by
  simp [recompute]

theorem storeFind_eq_none_iff (store : List Ticket) (k : String) :
    storeFind store k = none ↔ ∀ u ∈ store, u.slip_number ≠ k := by
  unfold storeFind
  rw [List.find?_eq_none]
  constructor
  · intro h u hu; have := h u hu; simpa using this
  · intro h u hu; simpa using h u hu

/-- C2: every ticket touched by a batch import (one whose slip number is in
the batch cache) ends the batch with `total_amount` equal to the sum of its
items' prices, and the manual single-slip entry leaves its ticket with the
same property. -/
theorem totals_match_item_sums :
    (∀ (F : DateFns) (rows : List Row) (store : List Ticket) (t : Ticket),
      t ∈ (uploadOk F rows store).store →
      t.slip_number ∈ (runRowsAux F 0 rows (initState store)).cache.map Prod.fst →
      t.total_amount = sumPrices t.items) ∧
    (∀ (F : DateFns) (form : SlipForm) (store S₂ : List Ticket) (t : Ticket),
      addPinkSlip F form store = .ok S₂ → t ∈ S₂ →
      t.slip_number = pyStrip form.slip_number →
      t.total_amount = sumPrices t.items) := by
  constructor
  · intro F rows store t ht hkey
    simp only [uploadOk] at ht
    rcases mem_applyCache _ _ t ht with ⟨p, hp, hpt⟩ | ⟨_, hnone⟩
    · rw [← hpt]; exact recompute_inv _ p hp
    · exfalso
      rw [← recompute_keys (runRowsAux F 0 rows (initState store)).cache] at hkey
      rcases List.mem_map.mp hkey with ⟨p, hp, hpk⟩
      exact (cacheFind_eq_none_iff _ _).mp hnone p hp hpk
  · intro F form store S₂ t hok hmem hslip
    by_cases h0 : form.item_types = []
    · simp [addPinkSlip, h0] at hok
    · cases hv : validateItems 1 ((form.item_types.zip form.work_descriptions).zip form.prices) with
      | error m => simp [addPinkSlip, h0, hv] at hok
      | ok newItems =>
        cases hf : storeFind store (pyStrip form.slip_number) with
        | some t0 =>
          simp only [addPinkSlip, hv, hf, if_neg h0, Except.ok.injEq] at hok
          subst hok
          rcases List.mem_map.mp hmem with ⟨u, hu, hut⟩
          by_cases hus : u.slip_number = pyStrip form.slip_number
          · rw [if_pos hus] at hut
            rw [← hut]
          · rw [if_neg hus] at hut
            subst hut
            exact absurd hslip hus
        | none =>
          simp only [addPinkSlip, hv, hf, if_neg h0, Except.ok.injEq] at hok
          subst hok
          rcases List.mem_append.mp hmem with hl | hr
          · exact absurd hslip ((storeFind_eq_none_iff store _).mp hf t hl)
          · rcases List.mem_singleton.mp hr with rfl
            rfl

/-- The final ticket of a one-row batch, used as a closed instance below. -/
def c2ticket : Ticket :=
  ⟨"7", "?", "Unknown", "", "", "", "", mkRat 5 1, [⟨"Shirt", "", mkRat 5 1⟩]⟩

/-- A closed instance of `totals_match_item_sums` at a one-row batch. -/
theorem totals_match_item_sums_witness :
    c2ticket.total_amount = sumPrices c2ticket.items :=
  totals_match_item_sums.1 blankDates [[("slip_number", "7"), ("item_type", "Shirt"),
      ("price", "5")]] [] c2ticket
    (by with_unfolding_all decide) (by with_unfolding_all decide)

/-! ## Idempotence machinery: field-level merge lemmas -/

/-- The slip number a row is keyed by. -/
def slipOf (r : Row) : String := (readRow r).slip_number

/-- The item a validated row creates (app.py lines 343-348). -/
def itemOf (r : Row) (v : ValidRow) : Item :=
  ⟨v.item_type, (readRow r).work_description, v.price⟩

/-- The three normalized date/time strings a row carries into the ticket. -/
def drOf (F : DateFns) (r : Row) : String := F.formatDateVal (readRow r).date_received_raw

def ddOf (F : DateFns) (r : Row) : String := F.formatDateVal (readRow r).due_date_raw

theorem fillField_self (x : String) : fillField x x = x := by
  by_cases h : x = "" <;> simp [fillField, h]

theorem fillField_idem (c i : String) : fillField (fillField c i) i = fillField c i := by
  by_cases hi : i = "" <;> by_cases hc : c = "" <;> simp [fillField, hi, hc]

theorem fillField_orDefault (x d : String) (hd : d ≠ "") :
    fillField (orDefault x d) x = orDefault x d := by
  by_cases h : x = "" <;> simp [fillField, orDefault, h, hd]

theorem Ticket.ext9 (t u : Ticket)
    (h1 : t.slip_number = u.slip_number) (h2 : t.first_initial = u.first_initial)
    (h3 : t.last_name = u.last_name) (h4 : t.phone = u.phone)
    (h5 : t.date_received = u.date_received) (h6 : t.due_date = u.due_date)
    (h7 : t.due_time = u.due_time) (h8 : t.total_amount = u.total_amount)
    (h9 : t.items = u.items) : t = u := by
  cases t; cases u; simp_all

/-- The six optional fields the fill-only merge touches. -/
def scalarsEq (t u : Ticket) : Prop :=
  t.first_initial = u.first_initial ∧ t.last_name = u.last_name ∧ t.phone = u.phone ∧
    t.date_received = u.date_received ∧ t.due_date = u.due_date ∧ t.due_time = u.due_time

theorem mergeTicket_new (d : RowData) (dr dd dt : String) :
    mergeTicket (newTicket d dr dd dt) d dr dd dt = newTicket d dr dd dt := by
  apply Ticket.ext9 <;>
    simp [mergeTicket, newTicket, fillField_self,
      fillField_orDefault _ "?" (by decide), fillField_orDefault _ "Unknown" (by decide)]

theorem mergeTicket_idem (t : Ticket) (d : RowData) (dr dd dt : String) :
    mergeTicket (mergeTicket t d dr dd dt) d dr dd dt = mergeTicket t d dr dd dt := by
  apply Ticket.ext9 <;> simp [mergeTicket, fillField_idem]

theorem mergeTicket_stable_of_scalarsEq (t u : Ticket) (d : RowData) (dr dd dt : String)
    (hs : scalarsEq t u) (h : mergeTicket u d dr dd dt = u) :
    mergeTicket t d dr dd dt = t := by
  obtain ⟨h1, h2, h3, h4, h5, h6⟩ := hs
  apply Ticket.ext9
  · rfl
  · show fillField t.first_initial d.first_initial = t.first_initial
    rw [h1]; exact congrArg Ticket.first_initial h
  · show fillField t.last_name d.last_name = t.last_name
    rw [h2]; exact congrArg Ticket.last_name h
  · show fillField t.phone d.phone = t.phone
    rw [h3]; exact congrArg Ticket.phone h
  · show fillField t.date_received dr = t.date_received
    rw [h4]; exact congrArg Ticket.date_received h
  · show fillField t.due_date dd = t.due_date
    rw [h5]; exact congrArg Ticket.due_date h
  · show fillField t.due_time dt = t.due_time
    rw [h6]; exact congrArg Ticket.due_time h
  · rfl
  · rfl

theorem scalarsEq_addItems (t : Ticket) (l : List Item) :
    scalarsEq { t with items := l } t := by
  exact ⟨rfl, rfl, rfl, rfl, rfl, rfl⟩

theorem scalarsEq_setTotal (t : Ticket) (q : ℚ) :
    scalarsEq { t with total_amount := q } t := by
  exact ⟨rfl, rfl, rfl, rfl, rfl, rfl⟩

/-! ## Idempotence machinery: cache and store lemmas -/

/-- The keys of the batch cache, in insertion order. -/
def cacheKeys (cache : List (String × Ticket)) : List String := cache.map Prod.fst

theorem cacheKeys_cacheSet (cache : List (String × Ticket)) (k : String) (t : Ticket) :
    cacheKeys (cacheSet cache k t) = cacheKeys cache := by
  induction cache with
  | nil => rfl
  | cons p rest ih =>
    by_cases h : p.1 = k <;> simp [cacheSet, cacheKeys, h] <;>
      simpa [cacheSet, cacheKeys] using ih

theorem cacheFind_mem_keys (cache : List (String × Ticket)) (k : String) (t : Ticket)
    (h : cacheFind cache k = some t) : k ∈ cacheKeys cache := by
  rcases cacheFind_some_mem cache k t h with ⟨p, hp, _, hpk⟩
  exact hpk ▸ List.mem_map.mpr ⟨p, hp, rfl⟩

theorem cacheFind_of_mem_nodup (cache : List (String × Ticket))
    (hnd : (cacheKeys cache).Nodup) (p : String × Ticket) (hp : p ∈ cache) :
    cacheFind cache p.1 = some p.2 := by
  induction cache with
  | nil => cases hp
  | cons q rest ih =>
    rcases List.mem_cons.mp hp with h | h
    · subst h
      simp [cacheFind, List.find?_cons_of_pos]
    · have hnd' : (cacheKeys rest).Nodup := (List.nodup_cons.mp hnd).2
      have hq : q.1 ∉ cacheKeys rest := (List.nodup_cons.mp hnd).1
      have hne : ¬(q.1 = p.1) := by
        intro he
        exact hq (he ▸ List.mem_map.mpr ⟨p, h, rfl⟩)
      have := ih hnd' h
      simp only [cacheFind] at this ⊢
      rw [List.find?_cons_of_neg _ (by simpa using hne)]
      exact this

theorem mem_cacheSet_of_ne (cache : List (String × Ticket)) (k : String) (t : Ticket)
    (p : String × Ticket) (hp : p ∈ cache) (hne : p.1 ≠ k) :
    p ∈ cacheSet cache k t := by
  have : (if p.1 = k then (k, t) else p) ∈ cacheSet cache k t :=
    List.mem_map.mpr ⟨p, hp, rfl⟩
  rwa [if_neg hne] at this

theorem mem_cacheSet_self (cache : List (String × Ticket)) (k : String) (t : Ticket)
    (p : String × Ticket) (hp : p ∈ cache) (hk : p.1 = k) :
    (k, t) ∈ cacheSet cache k t := by
  have : (if p.1 = k then (k, t) else p) ∈ cacheSet cache k t :=
    List.mem_map.mpr ⟨p, hp, rfl⟩
  rwa [if_pos hk] at this

theorem mem_of_mem_cacheSet (cache : List (String × Ticket)) (k : String) (t : Ticket)
    (p : String × Ticket) (hp : p ∈ cacheSet cache k t) :
    (p = (k, t) ∧ ∃ q ∈ cache, q.1 = k) ∨ (p ∈ cache ∧ p.1 ≠ k) := by
  rcases List.mem_map.mp hp with ⟨q, hq, hqp⟩
  by_cases h : q.1 = k
  · rw [if_pos h] at hqp
    exact Or.inl ⟨hqp.symm, q, hq, h⟩
  · rw [if_neg h] at hqp
    subst hqp
    exact Or.inr ⟨hq, h⟩

theorem isDuplicate_true_mem (t : Ticket) (it wd : String) (p : ℚ)
    (h : isDuplicate t it wd p = true) : (⟨it, wd, p⟩ : Item) ∈ t.items := by
  unfold isDuplicate at h
  rcases List.any_eq_true.mp h with ⟨ex, hex, hprop⟩
  simp only [Bool.and_eq_true, decide_eq_true_eq] at hprop
  obtain ⟨⟨h1, h2⟩, h3⟩ := hprop
  have : ex = ⟨it, wd, p⟩ := by cases ex; simp_all
  exact this ▸ hex

theorem mem_isDuplicate_true (t : Ticket) (it wd : String) (p : ℚ)
    (h : (⟨it, wd, p⟩ : Item) ∈ t.items) : isDuplicate t it wd p = true := by
  unfold isDuplicate
  exact List.any_eq_true.mpr ⟨⟨it, wd, p⟩, h, by simp⟩

theorem storeFind_of_mem_nodup (store : List Ticket)
    (hnd : (store.map Ticket.slip_number).Nodup) (t : Ticket) (ht : t ∈ store) :
    storeFind store t.slip_number = some t := by
  induction store with
  | nil => cases ht
  | cons u rest ih =>
    rcases List.mem_cons.mp ht with h | h
    · subst h
      simp [storeFind, List.find?_cons_of_pos]
    · have hnd' : (rest.map Ticket.slip_number).Nodup := (List.nodup_cons.mp hnd).2
      have hu : u.slip_number ∉ rest.map Ticket.slip_number := (List.nodup_cons.mp hnd).1
      have hne : ¬(u.slip_number = t.slip_number) := by
        intro he
        exact hu (he ▸ List.mem_map.mpr ⟨t, h, rfl⟩)
      have := ih hnd' h
      simp only [storeFind] at this ⊢
      rw [List.find?_cons_of_neg _ (by simpa using hne)]
      exact this

theorem nodup_append_singleton {α : Type} (l : List α) (a : α)
    (hl : l.Nodup) (ha : a ∉ l) : (l ++ [a]).Nodup := by
  rw [List.nodup_append]
  exact ⟨hl, List.nodup_singleton a, by
    intro x hx hxa
    rcases List.mem_singleton.mp hxa with rfl
    exact ha hx⟩

theorem find?_first_occurrence (pre rest : List Row) (r : Row) (k : String)
    (hpre : ∀ r₀ ∈ pre, slipOf r₀ ≠ k) (hr : slipOf r = k) :
    (pre ++ r :: rest).find? (fun r₀ => slipOf r₀ = k) = some r := by
  rw [List.find?_append]
  have h1 : pre.find? (fun r₀ => slipOf r₀ = k) = none :=
    List.find?_eq_none.mpr (fun x hx => by simpa using hpre x hx)
  rw [h1, List.find?_cons_of_pos _ (by simpa using hr)]
  rfl

/-- Batch-level validity of a row: the validation gate accepts it. -/
def rowOk (r : Row) : Bool :=
  match checkRow (readRow r) with
  | .ok _ => true
  | .error _ => false

theorem rowOk_exists (r : Row) (h : rowOk r = true) :
    ∃ v, checkRow (readRow r) = .ok v := by
  unfold rowOk at h
  cases hc : checkRow (readRow r) with
  | ok v => exact ⟨v, rfl⟩
  | error e => rw [hc] at h; exact Bool.noConfusion h

/-- The obtain-or-create call of one accepted row, as the loop performs it. -/
def ocOf (F : DateFns) (s : ImportState) (r : Row) : Ticket × List (String × Ticket) × Nat :=
  obtainOrCreate s.cache s.committed (readRow r) (drOf F r) (ddOf F r)
    (dueTimeOf F (readRow r))

/-- The duplicate test of one accepted row. -/
def dupOf (F : DateFns) (s : ImportState) (r : Row) (v : ValidRow) : Bool :=
  isDuplicate (ocOf F s r).1 v.item_type (readRow r).work_description v.price

/-- One accepted row's loop iteration, written as a single record update. -/
theorem processRow_ok (F : DateFns) (s : ImportState) (n : Nat) (r : Row) (v : ValidRow)
    (hok : checkRow (readRow r) = .ok v) :
    processRow F s n r =
      { s with
        cache :=
          if dupOf F s r v then (ocOf F s r).2.1
          else cacheSet (ocOf F s r).2.1 (slipOf r)
            { (ocOf F s r).1 with items := (ocOf F s r).1.items ++ [itemOf r v] }
        tickets_created := s.tickets_created + (ocOf F s r).2.2
        items_imported := s.items_imported + (if dupOf F s r v then 0 else 1)
        duplicates_skipped := s.duplicates_skipped + (if dupOf F s r v then 1 else 0) } := by
  simp only [processRow, hok, ocOf, dupOf, drOf, ddOf, itemOf, slipOf]
  split <;> simp

/-- Preservation of the batch-cache invariants through the duplicate-check /
item-attach step of one accepted row (app.py lines 329-350), given the
obtained ticket already sits in the cache under the row's slip number. -/
theorem attach_cache (F : DateFns) (rows pre : List Row) (r : Row) (v : ValidRow)
    (cache₁ cache₂ : List (String × Ticket)) (T : Ticket)
    (hc₂ : cache₂ =
      if isDuplicate T v.item_type (readRow r).work_description v.price then cache₁
      else cacheSet cache₁ (slipOf r) { T with items := T.items ++ [itemOf r v] })
    (hT : (slipOf r, T) ∈ cache₁)
    (hkey₁ : ∀ p ∈ cache₁, p.2.slip_number = p.1)
    (hnodup₁ : (cacheKeys cache₁).Nodup)
    (hstable₁ : ∀ p ∈ cache₁, ∀ r₀, rows.find? (fun r₂ => slipOf r₂ = p.1) = some r₀ →
      mergeTicket p.2 (readRow r₀) (drOf F r₀) (ddOf F r₀) (dueTimeOf F (readRow r₀)) = p.2)
    (hitem₁ : ∀ r₁ ∈ pre, ∀ v₁, checkRow (readRow r₁) = .ok v₁ →
      ∃ p ∈ cache₁, p.1 = slipOf r₁ ∧ itemOf r₁ v₁ ∈ p.2.items)
    (hok : checkRow (readRow r) = .ok v) :
    (∀ p ∈ cache₂, p.2.slip_number = p.1) ∧
    cacheKeys cache₂ = cacheKeys cache₁ ∧
    (∀ p ∈ cache₂, ∀ r₀, rows.find? (fun r₂ => slipOf r₂ = p.1) = some r₀ →
      mergeTicket p.2 (readRow r₀) (drOf F r₀) (ddOf F r₀) (dueTimeOf F (readRow r₀)) = p.2) ∧
    (∀ r₁ ∈ pre ++ [r], ∀ v₁, checkRow (readRow r₁) = .ok v₁ →
      ∃ p ∈ cache₂, p.1 = slipOf r₁ ∧ itemOf r₁ v₁ ∈ p.2.items) := by
  have hTslip : T.slip_number = slipOf r := hkey₁ (slipOf r, T) hT
  have huniq : ∀ q ∈ cache₁, q.1 = slipOf r → q.2 = T := by
    intro q hq hq1
    have e1 := cacheFind_of_mem_nodup cache₁ hnodup₁ q hq
    have e2 := cacheFind_of_mem_nodup cache₁ hnodup₁ (slipOf r, T) hT
    rw [hq1] at e1
    rw [e2] at e1
    exact (Option.some.injEq _ _).mp e1.symm
  by_cases hdup : isDuplicate T v.item_type (readRow r).work_description v.price = true
  · rw [if_pos hdup] at hc₂
    subst hc₂
    refine ⟨hkey₁, rfl, hstable₁, ?_⟩
    intro r₁ hr₁ v₁ hv₁
    rcases List.mem_append.mp hr₁ with h | h
    · exact hitem₁ r₁ h v₁ hv₁
    · rcases List.mem_singleton.mp h with rfl
      have hv : v₁ = v := by
        rw [hok] at hv₁
        injection hv₁.symm
      subst hv
      exact ⟨(slipOf r₁, T), hT, rfl, isDuplicate_true_mem T _ _ _ hdup⟩
  · rw [if_neg hdup] at hc₂
    subst hc₂
    refine ⟨?_, cacheKeys_cacheSet _ _ _, ?_, ?_⟩
    · intro p hp
      rcases mem_of_mem_cacheSet _ _ _ _ hp with ⟨rfl, _⟩ | ⟨hp₁, _⟩
      · exact hTslip
      · exact hkey₁ p hp₁
    · intro p hp r₀ hfind
      rcases mem_of_mem_cacheSet _ _ _ _ hp with ⟨rfl, _⟩ | ⟨hp₁, _⟩
      · have hs := hstable₁ (slipOf r, T) hT r₀ hfind
        exact mergeTicket_stable_of_scalarsEq _ T _ _ _ _ (scalarsEq_addItems T _) hs
      · exact hstable₁ p hp₁ r₀ hfind
    · intro r₁ hr₁ v₁ hv₁
      rcases List.mem_append.mp hr₁ with h | h
      · rcases hitem₁ r₁ h v₁ hv₁ with ⟨q, hq, hqk, hqi⟩
        by_cases hq1 : q.1 = slipOf r
        · have hq2 := huniq q hq hq1
          refine ⟨(slipOf r, { T with items := T.items ++ [itemOf r v] }),
            mem_cacheSet_self cache₁ (slipOf r) _ (slipOf r, T) hT rfl, ?_, ?_⟩
          · rw [← hq1, hqk]
          · rw [← hq2]
            exact List.mem_append_left _ (hq2 ▸ hqi)
        · exact ⟨q, mem_cacheSet_of_ne cache₁ _ _ q hq hq1, hqk, hqi⟩
      · rcases List.mem_singleton.mp h with rfl
        have hv : v₁ = v := by
          rw [hok] at hv₁
          injection hv₁.symm
        subst hv
        refine ⟨(slipOf r₁, { T with items := T.items ++ [itemOf r₁ v₁] }),
          mem_cacheSet_self cache₁ (slipOf r₁) _ (slipOf r₁, T) hT rfl, rfl, ?_⟩
        simp

theorem not_mem_keys_of_cacheFind_none (cache : List (String × Ticket)) (k : String)
    (h : cacheFind cache k = none) : k ∉ cacheKeys cache := by
  intro hk
  rcases List.mem_map.mp hk with ⟨p, hp, hpk⟩
  exact (cacheFind_eq_none_iff cache k).mp h p hp hpk

theorem cacheKeys_append (cache : List (String × Ticket)) (e : String × Ticket) :
    cacheKeys (cache ++ [e]) = cacheKeys cache ++ [e.1] := by
  simp [cacheKeys]

/-- The invariant carried through the first import of a batch: the committed
store is untouched, the cache is keyed consistently and without duplicate
keys, its keys are exactly the slip numbers of the processed prefix, every
processed row's item already sits on its cached ticket, and every cached
ticket is stable under re-merging its slip's first row. -/
structure Inv1 (F : DateFns) (S : List Ticket) (rows pre : List Row) (s : ImportState) :
    Prop where
  hcomm : s.committed = S
  hkey : ∀ p ∈ s.cache, p.2.slip_number = p.1
  hnodup : (cacheKeys s.cache).Nodup
  hkeys_iff : ∀ k, k ∈ cacheKeys s.cache ↔ ∃ r ∈ pre, slipOf r = k
  hitem : ∀ r ∈ pre, ∀ v, checkRow (readRow r) = .ok v →
    ∃ p ∈ s.cache, p.1 = slipOf r ∧ itemOf r v ∈ p.2.items
  hstable : ∀ p ∈ s.cache, ∀ r₀, rows.find? (fun r₂ => slipOf r₂ = p.1) = some r₀ →
    mergeTicket p.2 (readRow r₀) (drOf F r₀) (ddOf F r₀) (dueTimeOf F (readRow r₀)) = p.2

theorem run1_start (F : DateFns) (S : List Ticket) (rows : List Row) :
    Inv1 F S rows [] (initState S) := by
  refine ⟨rfl, ?_, ?_, ?_, ?_, ?_⟩ <;> simp [initState, cacheKeys]

theorem run1_step (F : DateFns) (S : List Ticket) (rows pre rest : List Row) (r : Row)
    (hrows : rows = pre ++ r :: rest) (s : ImportState) (n : Nat) (v : ValidRow)
    (hok : checkRow (readRow r) = .ok v) (inv : Inv1 F S rows pre s) :
    Inv1 F S rows (pre ++ [r]) (processRow F s n r) := by
  have main : ∃ T cache₁ c, ocOf F s r = (T, cache₁, c) ∧
      (slipOf r, T) ∈ cache₁ ∧
      (∀ p ∈ cache₁, p.2.slip_number = p.1) ∧
      (cacheKeys cache₁).Nodup ∧
      (∀ k, k ∈ cacheKeys cache₁ ↔ ∃ r₁ ∈ pre ++ [r], slipOf r₁ = k) ∧
      (∀ r₁ ∈ pre, ∀ v₁, checkRow (readRow r₁) = .ok v₁ →
        ∃ p ∈ cache₁, p.1 = slipOf r₁ ∧ itemOf r₁ v₁ ∈ p.2.items) ∧
      (∀ p ∈ cache₁, ∀ r₀, rows.find? (fun r₂ => slipOf r₂ = p.1) = some r₀ →
        mergeTicket p.2 (readRow r₀) (drOf F r₀) (ddOf F r₀)
          (dueTimeOf F (readRow r₀)) = p.2) := by
    cases hcf : cacheFind s.cache ((readRow r).slip_number) with
    | some t =>
      refine ⟨t, s.cache, 0, by simp [ocOf, obtainOrCreate, hcf], ?_, inv.hkey,
        inv.hnodup, ?_, inv.hitem, inv.hstable⟩
      · rcases cacheFind_some_mem _ _ _ hcf with ⟨p, hp, hpt, hpk⟩
        have he : (slipOf r, t) = p := by
          show ((readRow r).slip_number, t) = p
          rw [← hpk, ← hpt]
        rw [he]; exact hp
      · intro k
        constructor
        · intro hk
          rcases (inv.hkeys_iff k).mp hk with ⟨r₁, hr₁, he⟩
          exact ⟨r₁, List.mem_append_left _ hr₁, he⟩
        · rintro ⟨r₁, hr₁, he⟩
          rcases List.mem_append.mp hr₁ with h | h
          · exact (inv.hkeys_iff k).mpr ⟨r₁, h, he⟩
          · rcases List.mem_singleton.mp h with rfl
            rw [← he]
            exact cacheFind_mem_keys _ _ _ hcf
    | none =>
      have hnotkeys : slipOf r ∉ cacheKeys s.cache :=
        not_mem_keys_of_cacheFind_none _ _ hcf
      have hfst : ∀ r₁ ∈ pre, slipOf r₁ ≠ slipOf r := by
        intro r₁ h₁ he
        exact hnotkeys ((inv.hkeys_iff (slipOf r)).mpr ⟨r₁, h₁, he⟩)
      have hfind0 : rows.find? (fun r₂ => slipOf r₂ = slipOf r) = some r := by
        rw [hrows]
        exact find?_first_occurrence pre rest r _ hfst rfl
      cases hsf : storeFind s.committed ((readRow r).slip_number) with
      | some t0 =>
        have ht0slip : t0.slip_number = slipOf r := by
          have := List.find?_some hsf
          simpa using this
        refine ⟨mergeTicket t0 (readRow r) (drOf F r) (ddOf F r) (dueTimeOf F (readRow r)),
          s.cache ++ [(slipOf r,
            mergeTicket t0 (readRow r) (drOf F r) (ddOf F r) (dueTimeOf F (readRow r)))],
          0, by simp [ocOf, obtainOrCreate, hcf, hsf, slipOf], ?_, ?_, ?_, ?_, ?_, ?_⟩
        · exact List.mem_append_right _ (List.mem_singleton.mpr rfl)
        · intro p hp
          rcases List.mem_append.mp hp with h | h
          · exact inv.hkey p h
          · rcases List.mem_singleton.mp h with rfl
            exact ht0slip
        · rw [cacheKeys_append]
          exact nodup_append_singleton _ _ inv.hnodup hnotkeys
        · intro k
          rw [cacheKeys_append, List.mem_append, List.mem_singleton]
          constructor
          · rintro (hk | rfl)
            · rcases (inv.hkeys_iff k).mp hk with ⟨r₁, hr₁, he⟩
              exact ⟨r₁, List.mem_append_left _ hr₁, he⟩
            · exact ⟨r, List.mem_append_right _ (List.mem_singleton.mpr rfl), rfl⟩
          · rintro ⟨r₁, hr₁, he⟩
            rcases List.mem_append.mp hr₁ with h | h
            · exact Or.inl ((inv.hkeys_iff k).mpr ⟨r₁, h, he⟩)
            · rcases List.mem_singleton.mp h with rfl
              exact Or.inr he.symm
        · intro r₁ hr₁ v₁ hv₁
          rcases inv.hitem r₁ hr₁ v₁ hv₁ with ⟨p, hp, hpk, hpi⟩
          exact ⟨p, List.mem_append_left _ hp, hpk, hpi⟩
        · intro p hp r₀ hfind
          rcases List.mem_append.mp hp with h | h
          · exact inv.hstable p h r₀ hfind
          · rcases List.mem_singleton.mp h with rfl
            have hr₀ : r₀ = r := by
              rw [hfind0] at hfind
              injection hfind.symm
            subst hr₀
            exact mergeTicket_idem t0 _ _ _ _
      | none =>
        refine ⟨newTicket (readRow r) (drOf F r) (ddOf F r) (dueTimeOf F (readRow r)),
          s.cache ++ [(slipOf r,
            newTicket (readRow r) (drOf F r) (ddOf F r) (dueTimeOf F (readRow r)))],
          1, by simp [ocOf, obtainOrCreate, hcf, hsf, slipOf], ?_, ?_, ?_, ?_, ?_, ?_⟩
        · exact List.mem_append_right _ (List.mem_singleton.mpr rfl)
        · intro p hp
          rcases List.mem_append.mp hp with h | h
          · exact inv.hkey p h
          · rcases List.mem_singleton.mp h with rfl
            rfl
        · rw [cacheKeys_append]
          exact nodup_append_singleton _ _ inv.hnodup hnotkeys
        · intro k
          rw [cacheKeys_append, List.mem_append, List.mem_singleton]
          constructor
          · rintro (hk | rfl)
            · rcases (inv.hkeys_iff k).mp hk with ⟨r₁, hr₁, he⟩
              exact ⟨r₁, List.mem_append_left _ hr₁, he⟩
            · exact ⟨r, List.mem_append_right _ (List.mem_singleton.mpr rfl), rfl⟩
          · rintro ⟨r₁, hr₁, he⟩
            rcases List.mem_append.mp hr₁ with h | h
            · exact Or.inl ((inv.hkeys_iff k).mpr ⟨r₁, h, he⟩)
            · rcases List.mem_singleton.mp h with rfl
              exact Or.inr he.symm
        · intro r₁ hr₁ v₁ hv₁
          rcases inv.hitem r₁ hr₁ v₁ hv₁ with ⟨p, hp, hpk, hpi⟩
          exact ⟨p, List.mem_append_left _ hp, hpk, hpi⟩
        · intro p hp r₀ hfind
          rcases List.mem_append.mp hp with h | h
          · exact inv.hstable p h r₀ hfind
          · rcases List.mem_singleton.mp h with rfl
            have hr₀ : r₀ = r := by
              rw [hfind0] at hfind
              injection hfind.symm
            subst hr₀
            exact mergeTicket_new _ _ _ _
  obtain ⟨T, cache₁, c, hoc, hT, hkey₁, hnodup₁, hkeys₁, hitem₁, hstable₁⟩ := main
  obtain ⟨hkey₂, hkeysEq₂, hstable₂, hitem₂⟩ :=
    attach_cache F rows pre r v cache₁ _ T rfl hT hkey₁ hnodup₁ hstable₁ hitem₁ hok
  have hcache : (processRow F s n r).cache =
      (if isDuplicate T v.item_type (readRow r).work_description v.price then cache₁
       else cacheSet cache₁ (slipOf r) { T with items := T.items ++ [itemOf r v] }) := by
    rw [processRow_ok F s n r v hok]
    simp only [dupOf, hoc]
  have hcomm2 : (processRow F s n r).committed = s.committed :=
    processRow_committed F s n r
  refine ⟨?_, ?_, ?_, ?_, ?_, ?_⟩
  · rw [hcomm2, inv.hcomm]
  · rw [hcache]; exact hkey₂
  · rw [hcache, hkeysEq₂]; exact hnodup₁
  · intro k; rw [hcache, hkeysEq₂]; exact hkeys₁ k
  · rw [hcache]; exact hitem₂
  · rw [hcache]; exact hstable₂

theorem run1_inv (F : DateFns) (S : List Ticket) (rows : List Row) :
    ∀ (rest pre : List Row) (s : ImportState) (i : Nat),
      rows = pre ++ rest →
      (∀ r ∈ rest, rowOk r = true) →
      Inv1 F S rows pre s →
      Inv1 F S rows rows (runRowsAux F i rest s) := by
  intro rest
  induction rest with
  | nil =>
    intro pre s i hrows _ inv
    rw [List.append_nil] at hrows
    subst hrows
    exact inv
  | cons r rest2 ih =>
    intro pre s i hrows hval inv
    have hvr := hval r (List.mem_cons_self r rest2)
    obtain ⟨v, hok⟩ := rowOk_exists r hvr
    have step := run1_step F S rows pre rest2 r hrows s (i + 2) v hok inv
    have hrows2 : rows = (pre ++ [r]) ++ rest2 := by
      rw [hrows, List.append_assoc]; rfl
    exact ih (pre ++ [r]) (processRow F s (i + 2) r) (i + 1) hrows2
      (fun r₂ h₂ => hval r₂ (List.mem_cons_of_mem r h₂)) step

theorem recompute_key (cache : List (String × Ticket))
    (h : ∀ p ∈ cache, p.2.slip_number = p.1) :
    ∀ p ∈ recompute cache, p.2.slip_number = p.1 := by
  intro p hp
  rcases List.mem_map.mp hp with ⟨q, hq, hqp⟩
  rw [← hqp]
  exact h q hq

theorem applyCache_map_slip (S : List Ticket) (cache : List (String × Ticket))
    (hkey : ∀ p ∈ cache, p.2.slip_number = p.1) :
    (applyCache S cache).map Ticket.slip_number =
      S.map Ticket.slip_number ++
        (cache.filter (fun p => S.all (fun t => !(t.slip_number = p.1)))).map Prod.fst := by
  unfold applyCache
  rw [List.map_append]
  congr 1
  · rw [List.map_map]
    apply List.map_congr_left
    intro u hu
    cases hf : cacheFind cache u.slip_number with
    | some t₂ =>
      rcases cacheFind_some_mem _ _ _ hf with ⟨p, hp, hpt, hpk⟩
      have : t₂.slip_number = u.slip_number := by
        rw [← hpt, hkey p hp, hpk]
      simp [Function.comp, hf, this]
    | none => simp [Function.comp, hf]
  · rw [List.map_map]
    apply List.map_congr_left
    intro p hp
    exact hkey p (List.mem_of_mem_filter hp)

theorem applyCache_nodup (S : List Ticket) (cache : List (String × Ticket))
    (hS : (S.map Ticket.slip_number).Nodup)
    (hkey : ∀ p ∈ cache, p.2.slip_number = p.1)
    (hnodup : (cacheKeys cache).Nodup) :
    ((applyCache S cache).map Ticket.slip_number).Nodup := by
  rw [applyCache_map_slip S cache hkey, List.nodup_append]
  refine ⟨hS, ?_, ?_⟩
  · have hsub : (cache.filter (fun p => S.all (fun t => !(t.slip_number = p.1)))).map
        Prod.fst |>.Sublist (cacheKeys cache) :=
      (List.filter_sublist _).map Prod.fst
    exact hnodup.sublist hsub
  · intro k hk hk₂
    rcases List.mem_map.mp hk₂ with ⟨p, hp, hpk⟩
    have hall := (List.mem_filter.mp hp).2
    rcases List.mem_map.mp hk with ⟨u, hu, huk⟩
    have := List.all_eq_true.mp hall u hu
    rw [huk, ← hpk] at this
    simp at this

theorem applyCache_mem (S : List Ticket) (cache : List (String × Ticket))
    (hnodup : (cacheKeys cache).Nodup) (p : String × Ticket) (hp : p ∈ cache) :
    p.2 ∈ applyCache S cache := by
  unfold applyCache
  by_cases hk : ∃ u ∈ S, u.slip_number = p.1
  · obtain ⟨u, hu, hus⟩ := hk
    apply List.mem_append_left
    apply List.mem_map.mpr
    refine ⟨u, hu, ?_⟩
    have hf : cacheFind cache u.slip_number = some p.2 := by
      rw [hus]
      exact cacheFind_of_mem_nodup cache hnodup p hp
    simp [hf]
  · apply List.mem_append_right
    apply List.mem_map.mpr
    refine ⟨p, ?_, rfl⟩
    rw [List.mem_filter]
    refine ⟨hp, ?_⟩
    rw [List.all_eq_true]
    intro t ht
    simp only [Bool.not_eq_eq_eq_not, Bool.not_true, decide_eq_false_iff_not]
    intro he
    exact hk ⟨t, ht, he⟩

/-- After one import of an all-valid batch over a store with unique slip
numbers: the resulting store has unique slip numbers, and every row's slip
number resolves to a stored ticket that already carries the row's item, has
a consistent total, and is stable under re-merging its slip's first row. -/
theorem run1_final (F : DateFns) (S : List Ticket) (rows : List Row)
    (hS : (S.map Ticket.slip_number).Nodup) (hval : ∀ r ∈ rows, rowOk r = true) :
    ((uploadOk F rows S).store.map Ticket.slip_number).Nodup ∧
    (∀ r ∈ rows, ∀ v, checkRow (readRow r) = .ok v →
      ∃ T, storeFind (uploadOk F rows S).store (slipOf r) = some T ∧
        itemOf r v ∈ T.items ∧ T.total_amount = sumPrices T.items ∧
        ∀ r₀, rows.find? (fun r₂ => slipOf r₂ = slipOf r) = some r₀ →
          mergeTicket T (readRow r₀) (drOf F r₀) (ddOf F r₀)
            (dueTimeOf F (readRow r₀)) = T) := by
  have inv := run1_inv F S rows rows [] (initState S) 0 rfl hval (run1_start F S rows)
  have hkeyC := recompute_key (runRowsAux F 0 rows (initState S)).cache inv.hkey
  have hnodupC : (cacheKeys (recompute (runRowsAux F 0 rows (initState S)).cache)).Nodup := by
    rw [show cacheKeys (recompute (runRowsAux F 0 rows (initState S)).cache) =
        cacheKeys (runRowsAux F 0 rows (initState S)).cache from
      recompute_keys (runRowsAux F 0 rows (initState S)).cache]
    exact inv.hnodup
  have hstore : (uploadOk F rows S).store =
      applyCache S (recompute (runRowsAux F 0 rows (initState S)).cache) := by
    simp only [uploadOk]
    rw [inv.hcomm]
  have hnd : ((uploadOk F rows S).store.map Ticket.slip_number).Nodup := by
    rw [hstore]
    exact applyCache_nodup S _ hS hkeyC hnodupC
  refine ⟨hnd, ?_⟩
  intro r hr v hv
  obtain ⟨p, hp, hpk, hpi⟩ := inv.hitem r hr v hv
  have hpC : (p.1, { p.2 with total_amount := sumPrices p.2.items }) ∈
      recompute (runRowsAux F 0 rows (initState S)).cache :=
    List.mem_map.mpr ⟨p, hp, rfl⟩
  have hmem : ({ p.2 with total_amount := sumPrices p.2.items } : Ticket) ∈
      (uploadOk F rows S).store := by
    rw [hstore]
    exact applyCache_mem S _ hnodupC _ hpC
  have hslip : ({ p.2 with total_amount := sumPrices p.2.items } : Ticket).slip_number =
      slipOf r := by
    show p.2.slip_number = slipOf r
    rw [inv.hkey p hp, hpk]
  refine ⟨{ p.2 with total_amount := sumPrices p.2.items }, ?_, ?_, rfl, ?_⟩
  · rw [← hslip]
    exact storeFind_of_mem_nodup _ hnd _ hmem
  · exact hpi
  · intro r₀ hfind
    have hst := inv.hstable p hp r₀ (by rw [hpk]; exact hfind)
    exact mergeTicket_stable_of_scalarsEq _ p.2 _ _ _ _ (scalarsEq_setTotal p.2 _) hst

/-- The invariant of the second, idempotent import: the cache only holds
exact copies of already-stored tickets, every processed row was counted as a
duplicate skip, and nothing else moved. -/
structure Inv2 (S₁ : List Ticket) (pre : List Row) (s : ImportState) : Prop where
  hcomm : s.committed = S₁
  hcopy : ∀ p ∈ s.cache, storeFind S₁ p.1 = some p.2 ∧
    p.2.total_amount = sumPrices p.2.items ∧ p.2.slip_number = p.1
  hkeys_iff : ∀ k, k ∈ cacheKeys s.cache ↔ ∃ r ∈ pre, slipOf r = k
  hcreated : s.tickets_created = 0
  himported : s.items_imported = 0
  hskipped : s.rows_skipped = 0
  hdups : s.duplicates_skipped = pre.length
  herr : s.error_rows = []

theorem run2_start (S₁ : List Ticket) : Inv2 S₁ [] (initState S₁) := by
  refine ⟨rfl, ?_, ?_, rfl, rfl, rfl, rfl, rfl⟩ <;> simp [initState, cacheKeys]

theorem run2_step (F : DateFns) (S₁ : List Ticket) (rows pre rest : List Row) (r : Row)
    (hrows : rows = pre ++ r :: rest) (s : ImportState) (n : Nat) (v : ValidRow)
    (hok : checkRow (readRow r) = .ok v)
    (hfact : ∀ r₁ ∈ rows, ∀ v₁, checkRow (readRow r₁) = .ok v₁ →
      ∃ T, storeFind S₁ (slipOf r₁) = some T ∧ itemOf r₁ v₁ ∈ T.items ∧
        T.total_amount = sumPrices T.items ∧
        ∀ r₀, rows.find? (fun r₂ => slipOf r₂ = slipOf r₁) = some r₀ →
          mergeTicket T (readRow r₀) (drOf F r₀) (ddOf F r₀)
            (dueTimeOf F (readRow r₀)) = T)
    (inv : Inv2 S₁ pre s) : Inv2 S₁ (pre ++ [r]) (processRow F s n r) := by
  have hrmem : r ∈ rows := by
    rw [hrows]
    exact List.mem_append_right _ (List.mem_cons_self r rest)
  obtain ⟨T, hsfT, hTitem, hTtot, hTstab⟩ := hfact r hrmem v hok
  have hsfT₂ : storeFind S₁ ((readRow r).slip_number) = some T := hsfT
  have hTslip : T.slip_number = (readRow r).slip_number := by
    have := List.find?_some hsfT₂
    simpa using this
  have hrs : (processRow F s n r).rows_skipped = s.rows_skipped := by
    rw [processRow_rows_skipped, hok]
  have herr₂ : (processRow F s n r).error_rows = s.error_rows := by
    rw [processRow_error_rows, hok]
  have hcomm₂ : (processRow F s n r).committed = s.committed := processRow_committed F s n r
  cases hcf : cacheFind s.cache ((readRow r).slip_number) with
  | some t =>
    rcases cacheFind_some_mem _ _ _ hcf with ⟨p, hp, hpt, hpk⟩
    have hcopyp := inv.hcopy p hp
    have ht : t = T := by
      have h1 := hcopyp.1
      rw [hpk] at h1
      rw [hsfT₂] at h1
      rw [← hpt]
      injection h1 with he
      exact he.symm
    have hoc : ocOf F s r = (t, s.cache, 0) := by
      simp [ocOf, obtainOrCreate, hcf]
    have hdupb : dupOf F s r v = true := by
      rw [dupOf, hoc, ht]
      exact mem_isDuplicate_true T _ _ _ hTitem
    have hcache : (processRow F s n r).cache = s.cache := by
      rw [processRow_ok F s n r v hok]
      simp [hdupb, hoc]
    refine ⟨?_, ?_, ?_, ?_, ?_, ?_, ?_, ?_⟩
    · rw [hcomm₂, inv.hcomm]
    · rw [hcache]; exact inv.hcopy
    · intro k
      rw [hcache]
      constructor
      · intro hk
        rcases (inv.hkeys_iff k).mp hk with ⟨r₁, hr₁, he⟩
        exact ⟨r₁, List.mem_append_left _ hr₁, he⟩
      · rintro ⟨r₁, hr₁, he⟩
        rcases List.mem_append.mp hr₁ with h | h
        · exact (inv.hkeys_iff k).mpr ⟨r₁, h, he⟩
        · rcases List.mem_singleton.mp h with rfl
          rw [← he]
          exact cacheFind_mem_keys _ _ _ hcf
    · rw [processRow_ok F s n r v hok]
      simp [hoc, inv.hcreated]
    · rw [processRow_ok F s n r v hok]
      simp [hdupb, inv.himported]
    · rw [hrs, inv.hskipped]
    · rw [processRow_ok F s n r v hok]
      simp [hdupb, inv.hdups]
    · rw [herr₂, inv.herr]
  | none =>
    have hnotkeys := not_mem_keys_of_cacheFind_none _ _ hcf
    have hfst : ∀ r₁ ∈ pre, slipOf r₁ ≠ slipOf r := fun r₁ h₁ he =>
      hnotkeys ((inv.hkeys_iff _).mpr ⟨r₁, h₁, he⟩)
    have hfind0 : rows.find? (fun r₂ => slipOf r₂ = slipOf r) = some r := by
      rw [hrows]
      exact find?_first_occurrence pre rest r _ hfst rfl
    have hmerge : mergeTicket T (readRow r) (drOf F r) (ddOf F r)
        (dueTimeOf F (readRow r)) = T := hTstab r hfind0
    have hsf₃ : storeFind s.committed ((readRow r).slip_number) = some T := by
      rw [inv.hcomm]
      exact hsfT₂
    have hoc : ocOf F s r = (T, s.cache ++ [((readRow r).slip_number, T)], 0) := by
      simp [ocOf, obtainOrCreate, hcf, hsf₃, hmerge]
    have hdupb : dupOf F s r v = true := by
      rw [dupOf, hoc]
      exact mem_isDuplicate_true T _ _ _ hTitem
    have hcache : (processRow F s n r).cache = s.cache ++ [((readRow r).slip_number, T)] := by
      rw [processRow_ok F s n r v hok]
      simp [hdupb, hoc]
    refine ⟨?_, ?_, ?_, ?_, ?_, ?_, ?_, ?_⟩
    · rw [hcomm₂, inv.hcomm]
    · rw [hcache]
      intro p hp
      rcases List.mem_append.mp hp with h | h
      · exact inv.hcopy p h
      · rcases List.mem_singleton.mp h with rfl
        exact ⟨hsfT₂, hTtot, hTslip⟩
    · intro k
      rw [hcache, cacheKeys_append, List.mem_append, List.mem_singleton]
      constructor
      · rintro (hk | rfl)
        · rcases (inv.hkeys_iff k).mp hk with ⟨r₁, hr₁, he⟩
          exact ⟨r₁, List.mem_append_left _ hr₁, he⟩
        · exact ⟨r, List.mem_append_right _ (List.mem_singleton.mpr rfl), rfl⟩
      · rintro ⟨r₁, hr₁, he⟩
        rcases List.mem_append.mp hr₁ with h | h
        · exact Or.inl ((inv.hkeys_iff k).mpr ⟨r₁, h, he⟩)
        · rcases List.mem_singleton.mp h with rfl
          exact Or.inr he.symm
    · rw [processRow_ok F s n r v hok]
      simp [hoc, inv.hcreated]
    · rw [processRow_ok F s n r v hok]
      simp [hdupb, inv.himported]
    · rw [hrs, inv.hskipped]
    · rw [processRow_ok F s n r v hok]
      simp [hdupb, inv.hdups]
    · rw [herr₂, inv.herr]

theorem run2_inv (F : DateFns) (S₁ : List Ticket) (rows : List Row)
    (hfact : ∀ r₁ ∈ rows, ∀ v₁, checkRow (readRow r₁) = .ok v₁ →
      ∃ T, storeFind S₁ (slipOf r₁) = some T ∧ itemOf r₁ v₁ ∈ T.items ∧
        T.total_amount = sumPrices T.items ∧
        ∀ r₀, rows.find? (fun r₂ => slipOf r₂ = slipOf r₁) = some r₀ →
          mergeTicket T (readRow r₀) (drOf F r₀) (ddOf F r₀)
            (dueTimeOf F (readRow r₀)) = T) :
    ∀ (rest pre : List Row) (s : ImportState) (i : Nat),
      rows = pre ++ rest →
      (∀ r ∈ rest, rowOk r = true) →
      Inv2 S₁ pre s →
      Inv2 S₁ rows (runRowsAux F i rest s) := by
  intro rest
  induction rest with
  | nil =>
    intro pre s i hrows _ inv
    rw [List.append_nil] at hrows
    subst hrows
    exact inv
  | cons r rest2 ih =>
    intro pre s i hrows hval inv
    have hvr := hval r (List.mem_cons_self r rest2)
    obtain ⟨v, hok⟩ := rowOk_exists r hvr
    have step := run2_step F S₁ rows pre rest2 r hrows s (i + 2) v hok hfact inv
    have hrows2 : rows = (pre ++ [r]) ++ rest2 := by
      rw [hrows, List.append_assoc]; rfl
    exact ih (pre ++ [r]) (processRow F s (i + 2) r) (i + 1) hrows2
      (fun r₂ h₂ => hval r₂ (List.mem_cons_of_mem r h₂)) step

theorem recompute_eq_self (cache : List (String × Ticket))
    (h : ∀ p ∈ cache, p.2.total_amount = sumPrices p.2.items) :
    recompute cache = cache := by
  induction cache with
  | nil => rfl
  | cons p rest ih =>
    simp only [recompute, List.map_cons]
    congr 1
    · have hp := h p (List.mem_cons_self p rest)
      rw [← hp]
    · simpa [recompute] using ih (fun q hq => h q (List.mem_cons_of_mem p hq))

theorem applyCache_eq_self (S₁ : List Ticket) (cache : List (String × Ticket))
    (hnd : (S₁.map Ticket.slip_number).Nodup)
    (h : ∀ p ∈ cache, storeFind S₁ p.1 = some p.2) :
    applyCache S₁ cache = S₁ := by
  unfold applyCache
  have hfil : cache.filter (fun p => S₁.all fun t => !(t.slip_number = p.1)) = [] := by
    rw [List.filter_eq_nil_iff]
    intro p hp
    have hsf := h p hp
    have hmem := List.mem_of_find?_eq_some hsf
    have hpred : p.2.slip_number = p.1 := by simpa using List.find?_some hsf
    simp only [Bool.not_eq_true]
    rw [List.all_eq_false]
    exact ⟨p.2, hmem, by simp [hpred]⟩
  rw [hfil]
  simp only [List.map_nil, List.append_nil]
  have hcong : ∀ u ∈ S₁,
      (match cacheFind cache u.slip_number with
        | some t₂ => t₂
        | none => u) = u := by
    intro u hu
    cases hf : cacheFind cache u.slip_number with
    | none => simp [hf]
    | some t₂ =>
      rcases cacheFind_some_mem _ _ _ hf with ⟨p, hp, hpt, hpk⟩
      have h1 := h p hp
      rw [hpk] at h1
      have h2 := storeFind_of_mem_nodup S₁ hnd u hu
      rw [h1] at h2
      injection h2 with he
      simp [hf, ← hpt, he]
  calc List.map (fun u =>
        (match cacheFind cache u.slip_number with
          | some t₂ => t₂
          | none => u)) S₁
      = List.map id S₁ := List.map_congr_left hcong
    _ = S₁ := List.map_id S₁

theorem UploadResult.ext6 (a b : UploadResult) (h1 : a.store = b.store)
    (h2 : a.tickets_created = b.tickets_created) (h3 : a.items_imported = b.items_imported)
    (h4 : a.duplicates_skipped = b.duplicates_skipped) (h5 : a.rows_skipped = b.rows_skipped)
    (h6 : a.error_rows = b.error_rows) : a = b := by
  cases a; cases b; simp_all

/-- C1: importing a well-formed batch (every row passes validation) twice
into a store with unique slip numbers is idempotent — the second run creates
no tickets, imports no items, rejects nothing, counts every row as a
duplicate skip, and leaves the ticket/item store exactly as the first run
left it. -/
theorem import_idempotent (F : DateFns) (rows : List Row) (S : List Ticket)
    (hS : (S.map Ticket.slip_number).Nodup)
    (hval : ∀ r ∈ rows, rowOk r = true) :
    uploadOk F rows (uploadOk F rows S).store =
      { store := (uploadOk F rows S).store
        tickets_created := 0
        items_imported := 0
        duplicates_skipped := rows.length
        rows_skipped := 0
        error_rows := [] } := by
  obtain ⟨hnd₁, hfact⟩ := run1_final F S rows hS hval
  have inv₂ := run2_inv F ((uploadOk F rows S).store) rows hfact rows []
    (initState ((uploadOk F rows S).store)) 0 rfl hval (run2_start _)
  have hre : recompute
      (runRowsAux F 0 rows (initState ((uploadOk F rows S).store))).cache =
      (runRowsAux F 0 rows (initState ((uploadOk F rows S).store))).cache :=
    recompute_eq_self _ (fun p hp => ((inv₂.hcopy p hp).2).1)
  have hap : applyCache ((uploadOk F rows S).store)
      (runRowsAux F 0 rows (initState ((uploadOk F rows S).store))).cache =
      (uploadOk F rows S).store :=
    applyCache_eq_self _ _ hnd₁ (fun p hp => (inv₂.hcopy p hp).1)
  have hstore2 : (uploadOk F rows ((uploadOk F rows S).store)).store =
      (uploadOk F rows S).store := by
    show applyCache
        (runRowsAux F 0 rows (initState ((uploadOk F rows S).store))).committed
        (recompute (runRowsAux F 0 rows (initState ((uploadOk F rows S).store))).cache) =
      (uploadOk F rows S).store
    rw [inv₂.hcomm, hre, hap]
  exact UploadResult.ext6 _ _ hstore2 inv₂.hcreated inv₂.himported inv₂.hdups
    inv₂.hskipped inv₂.herr

/-- A two-row batch with one shared ticket, for the closed idempotence
instance below. -/
def c1rows : List Row :=
  [[("slip_number", "7"), ("item_type", "Shirt"), ("price", "5")],
   [("slip_number", "7"), ("item_type", "Jeans"), ("price", "3")]]

/-- A closed instance of `import_idempotent`: re-importing the two-row batch
into the store its first import produced changes nothing and counts both
rows as duplicates. -/
theorem import_idempotent_witness :
    uploadOk blankDates c1rows (uploadOk blankDates c1rows []).store =
      { store := (uploadOk blankDates c1rows []).store
        tickets_created := 0
        items_imported := 0
        duplicates_skipped := c1rows.length
        rows_skipped := 0
        error_rows := [] } :=
  import_idempotent blankDates c1rows [] (by decide) (by with_unfolding_all decide)

/-- The spec's three-row scenario, checked against the embedding: two items
on one new ticket plus a duplicate of the second row give one ticket
created, two items imported, one duplicate skipped, no rejections, and a
total of 30. -/
theorem scenario_three_rows :
    (uploadOk blankDates
        [[("slip_number", "000123"), ("item_type", "shirt"), ("price", "10")],
         [("slip_number", "000123"), ("item_type", "Jeans"), ("price", "20")],
         [("slip_number", "000123"), ("item_type", "Jeans"), ("price", "20")]] []).tickets_created = 1 ∧
    (uploadOk blankDates
        [[("slip_number", "000123"), ("item_type", "shirt"), ("price", "10")],
         [("slip_number", "000123"), ("item_type", "Jeans"), ("price", "20")],
         [("slip_number", "000123"), ("item_type", "Jeans"), ("price", "20")]] []).items_imported = 2 ∧
    (uploadOk blankDates
        [[("slip_number", "000123"), ("item_type", "shirt"), ("price", "10")],
         [("slip_number", "000123"), ("item_type", "Jeans"), ("price", "20")],
         [("slip_number", "000123"), ("item_type", "Jeans"), ("price", "20")]] []).duplicates_skipped = 1 ∧
    (uploadOk blankDates
        [[("slip_number", "000123"), ("item_type", "shirt"), ("price", "10")],
         [("slip_number", "000123"), ("item_type", "Jeans"), ("price", "20")],
         [("slip_number", "000123"), ("item_type", "Jeans"), ("price", "20")]] []).rows_skipped = 0 ∧
    (uploadOk blankDates
        [[("slip_number", "000123"), ("item_type", "shirt"), ("price", "10")],
         [("slip_number", "000123"), ("item_type", "Jeans"), ("price", "20")],
         [("slip_number", "000123"), ("item_type", "Jeans"), ("price", "20")]] []).store.map
      Ticket.total_amount = [mkRat 30 1] := by
  with_unfolding_all decide
